import Mathlib

/-!
Verification of the contract composition engine of the contracts-wizard
repository: the Solidity access-control feature (`set-access-control.ts`),
the two variants of the address-verification feature
(`add-address-verification.ts`), and the Stylus access-control stubs
(`stylus/src/set-access-control.ts`), shallowly embedded in Lean 4.

The `ContractBuilder` aggregate and its mutation operations live in the
repository's `contract.ts`, which is not part of the sources at hand; those
operations are modelled from the specification (sections 3 and 4) and each
such definition carries a doc comment saying so.
-/

set_option maxRecDepth 8000

deriving instance DecidableEq for Except

namespace ContractsWizard

/-- Runtime value of the `access` option: the TypeScript type is
`false | 'ownable' | 'roles' | ...`, so at runtime the value is either the
boolean `false` or a string. -/
inductive JsAccess where
  | jsFalse : JsAccess
  | jsStr : String → JsAccess
deriving DecidableEq, Repr

/-- JavaScript truthiness of an `access` value (`if (access) ...`):
`false` and the empty string are falsy. -/
def JsAccess.truthy : JsAccess → Bool
  | .jsFalse => false
  | .jsStr s => s ≠ ""

/-- A base-contract descriptor from the `parents` table: name and import path. -/
structure ParentContract where
  name : String
  path : String
deriving DecidableEq, Repr

/-- An inheritance entry: the parent contract plus its constructor-call
parameters (the `{ lit: ... }` entries at the `addParent` call sites). -/
structure Parent where
  contract : ParentContract
  params : List String
deriving DecidableEq, Repr

/-- A typed, named argument (constructor or function argument). -/
structure FunctionArgument where
  type : String
  name : String
deriving DecidableEq, Repr

/-- A function descriptor, as produced by `defineFunctions`. -/
structure BaseFunction where
  name : String
  args : List FunctionArgument
  returns : List String
  kind : String
  mutability : Option String
deriving DecidableEq, Repr

/-- An entry of the builder's function table: the descriptor plus the
accumulated modifiers, body code and override targets. -/
structure ContractFunction where
  fn : BaseFunction
  modifiers : List String
  code : List String
  overrides : List String
deriving DecidableEq, Repr

/-- Build-time errors of the engine (spec section 7). -/
inductive BuildError where
  | symbolConflict : String → String → String → BuildError
  | duplicateBody : String → BuildError
deriving DecidableEq, Repr

/-- The mutable contract model being built (spec section 3, `ContractModel`).
Modelled from the spec: `contract.ts` is not among the sources. -/
structure ContractBuilder where
  name : String
  upgradeable : Bool
  parents : List Parent
  imports : List (String × String)
  constants : List (String × List String)
  constructorArgs : List FunctionArgument
  constructorCode : List String
  stateVariables : List (String × Bool)
  variableBlocks : List String
  storageEntries : List (String × List String)
  functions : List ContractFunction
deriving DecidableEq, Repr

/-- Identity key of a function: name plus argument types (spec section 3,
`FunctionEntry` uniqueness key). -/
def fnSig (f : BaseFunction) : String × List String :=
  (f.name, f.args.map (fun a => a.type))

/-- Whether the builder already has a parent with the given identifier. -/
def ContractBuilder.hasParent (c : ContractBuilder) (p : ParentContract) : Bool :=
  c.parents.any (fun q => q.contract.name == p.name)

/-- Modelled from the spec: `addParent(ref) -> bool` of `contract.ts` is not
among the sources; per spec section 4.2 it returns whether the parent was
newly added (false when the identifier is already present), storing parents
in first-added order. -/
def ContractBuilder.addParent (c : ContractBuilder) (p : ParentContract)
    (ps : List String) : Bool × ContractBuilder :=
  if c.hasParent p then (false, c)
  else (true, { c with parents := c.parents ++ [⟨p, ps⟩] })

/-- Modelled from the spec: `addConstructorArgument` of `contract.ts` is not
among the sources; per spec section 4.4 an identical argument added twice is
a no-op, and arguments are kept in call order. -/
def ContractBuilder.addConstructorArgument (c : ContractBuilder)
    (a : FunctionArgument) : ContractBuilder :=
  { c with constructorArgs :=
      if a ∈ c.constructorArgs then c.constructorArgs else c.constructorArgs ++ [a] }

/-- Modelled from the spec: `addConstructorCode` of `contract.ts` is not among
the sources; per spec section 4.4 `addCode(stmt)` appends a statement to the
constructor body in call order. -/
def ContractBuilder.addConstructorCode (c : ContractBuilder) (s : String) :
    ContractBuilder :=
  { c with constructorCode := c.constructorCode ++ [s] }

/-- Whether a constant/event/error with this exact declaration text is present. -/
def ContractBuilder.hasConstant (c : ContractBuilder) (d : String) : Bool :=
  c.constants.any (fun e => e.1 == d)

/-- Modelled from the spec: `addConstantOrImmutableOrErrorDefinition` of
`contract.ts` is not among the sources; per spec section 3 (`NamedConstant`)
the uniqueness key is the full declaration text and duplicate insertion is a
silent no-op; the returned boolean says whether the entry was newly added. -/
def ContractBuilder.addConstantOrImmutableOrErrorDefinition (c : ContractBuilder)
    (d : String) (docs : List String) : Bool × ContractBuilder :=
  if c.hasConstant d then (false, c)
  else (true, { c with constants := c.constants ++ [(d, docs)] })

/-- Modelled from the spec: `addImportOnly` of `contract.ts` is not among the
sources; per spec sections 3 (`ImportEntry`) and 4.1 the uniqueness key is the
identifier, re-adding with the identical path is a silent no-op returning
`added = false`, and re-adding with a different path is a `SymbolConflict`. -/
def ContractBuilder.addImportOnly (c : ContractBuilder) (n p : String) :
    Except BuildError (Bool × ContractBuilder) :=
  match c.imports.find? (fun e => e.1 == n) with
  | some e => if e.2 == p then .ok (false, c) else .error (.symbolConflict n e.2 p)
  | none => .ok (true, { c with imports := c.imports ++ [(n, p)] })

/-- Modelled from the spec: `addVariable` of `contract.ts` is not among the
sources; per spec section 9 (open question) the freeform text-block path
appends the block verbatim and bypasses the Symbol Registry's conflict
detection. -/
def ContractBuilder.addVariable (c : ContractBuilder) (t : String) :
    ContractBuilder :=
  { c with variableBlocks := c.variableBlocks ++ [t] }

/-- Modelled from the spec: `addStateVariable` of `contract.ts` is not among
the sources; it records a plain state-variable declaration in addition order
(spec section 4.5, non-upgradeable path). -/
def ContractBuilder.addStateVariable (c : ContractBuilder) (t : String)
    (immutable : Bool) : ContractBuilder :=
  { c with stateVariables := c.stateVariables ++ [(t, immutable)] }

/-- Whether the function table has an entry with this function's identity. -/
def ContractBuilder.hasFunction (c : ContractBuilder) (f : BaseFunction) : Bool :=
  c.functions.any (fun e => fnSig e.fn == fnSig f)

/-- Modelled from the spec: per spec section 4.3 `addFunction` returns the
existing entry when one with the same identity exists (no overwrite);
otherwise a fresh entry is appended. -/
def ContractBuilder.ensureFunction (c : ContractBuilder) (f : BaseFunction) :
    ContractBuilder :=
  { c with functions :=
      if c.hasFunction f then c.functions
      else c.functions ++ [⟨f, [], [], []⟩] }

/-- Append a modifier to the matching entry's modifier list unless it is
already present (set semantics, first-seen order; spec section 4.3). -/
def addModifierToList (m : String) (key : String × List String) :
    List ContractFunction → List ContractFunction
  | [] => []
  | e :: rest =>
    if fnSig e.fn == key then
      (if m ∈ e.modifiers then e else { e with modifiers := e.modifiers ++ [m] }) :: rest
    else e :: addModifierToList m key rest

/-- Modelled from the spec: `addModifier` of `contract.ts` is not among the
sources; per spec section 4.3 it appends the modifier text if not already
present, creating the function entry first when needed. -/
def ContractBuilder.addModifier (c : ContractBuilder) (m : String)
    (f : BaseFunction) : ContractBuilder :=
  { c.ensureFunction f with
    functions := addModifierToList m (fnSig f) (c.ensureFunction f).functions }

/-- Append a parent identifier to the matching entry's override-target set
unless already present (spec section 4.2, `addOverride`). -/
def addOverrideToList (pn : String) (key : String × List String) :
    List ContractFunction → List ContractFunction
  | [] => []
  | e :: rest =>
    if fnSig e.fn == key then
      (if pn ∈ e.overrides then e else { e with overrides := e.overrides ++ [pn] }) :: rest
    else e :: addOverrideToList pn key rest

/-- Modelled from the spec: `addOverride` of `contract.ts` is not among the
sources; per spec section 4.2 it adds the parent's identifier to the
function's override-target set (deduplicated). -/
def ContractBuilder.addOverride (c : ContractBuilder) (p : ParentContract)
    (f : BaseFunction) : ContractBuilder :=
  { c.ensureFunction f with
    functions := addOverrideToList p.name (fnSig f) (c.ensureFunction f).functions }

/-- Set the body of the matching entry; fails with `DuplicateBodyError` when
the body is already non-empty (spec section 4.3, `setBody`). -/
def setCodeInList (code : String) (key : String × List String) :
    List ContractFunction → Except BuildError (List ContractFunction)
  | [] => .ok []
  | e :: rest =>
    if fnSig e.fn == key then
      if e.code ≠ [] then .error (.duplicateBody e.fn.name)
      else .ok ({ e with code := [code] } :: rest)
    else
      match setCodeInList code key rest with
      | .ok rest' => .ok (e :: rest')
      | .error err => .error err

/-- Modelled from the spec: `addFunctionCode` of `contract.ts` is not among
the sources; per spec section 4.3 it sets the function body, failing with
`DuplicateBodyError` when a body is already present, creating the function
entry first when needed. -/
def ContractBuilder.addFunctionCode (c : ContractBuilder) (code : String)
    (f : BaseFunction) : Except BuildError ContractBuilder :=
  match setCodeInList code (fnSig f) (c.ensureFunction f).functions with
  | .ok l => .ok { c.ensureFunction f with functions := l }
  | .error err => .error err

/-- Modelled from the spec: `addFunction` of `contract.ts` is not among the
sources; per spec section 4.3, when an entry of the same identity exists the
existing entry is kept, otherwise the descriptor (with its body code) is
appended. -/
def ContractBuilder.addFunction (c : ContractBuilder) (f : BaseFunction)
    (code : List String) : ContractBuilder :=
  { c with functions :=
      if c.hasFunction f then c.functions
      else c.functions ++ [⟨f, [], code, []⟩] }

/-- The modifier list accumulated on the entry matching `f` (empty when the
function table has no such entry). -/
def ContractBuilder.modifiersOf (c : ContractBuilder) (f : BaseFunction) :
    List String :=
  match c.functions.find? (fun e => fnSig e.fn == fnSig f) with
  | some e => e.modifiers
  | none => []

/-- The override-target list accumulated on the entry matching `f`. -/
def ContractBuilder.overridesOf (c : ContractBuilder) (f : BaseFunction) :
    List String :=
  match c.functions.find? (fun e => fnSig e.fn == fnSig f) with
  | some e => e.overrides
  | none => []

/-- Modelled from the spec: the fixed hashing procedure of
`set-namespaced-storage.ts` is not among the sources; per spec sections 3 and
4.5 the slot identifier is a fixed-length (256-bit) hash of an input string,
standing in for keccak256 as a concrete deterministic pure function. -/
def hashString (s : String) : Nat :=
  s.data.foldl (fun h ch => (h * 131 + ch.toNat) % (2 ^ 256)) 5381

/-- Modelled from the spec: the slot-identifier derivation of
`set-namespaced-storage.ts` is not among the sources; per spec section 4.5 it
is the hash of the composite string `"<namespace-label>.storage.<ContractName>"`. -/
def slotIdentifier (label contractName : String) : Nat :=
  hashString (label ++ ".storage." ++ contractName)

/-- Modelled from the spec: `setNamespacedStorage` of
`set-namespaced-storage.ts` is not among the sources; per spec section 4.5 it
routes the field declarations into the storage record keyed by the namespace
label, merging in addition order and deduplicating by field text. -/
def setNamespacedStorage (c : ContractBuilder) (fields : List String)
    (label : String) : ContractBuilder :=
  match c.storageEntries.find? (fun e => e.1 == label) with
  | some _ =>
    { c with storageEntries :=
        c.storageEntries.map (fun e =>
          if e.1 == label then (e.1, e.2 ++ fields.filter (fun f => f ∉ e.2)) else e) }
  | none => { c with storageEntries := c.storageEntries ++ [(label, fields)] }

/-- Modelled from the spec: `toStorageStructInstantiation` of
`set-namespaced-storage.ts` is not among the sources; per spec section 4.5 it
is the single accessor statement through which function bodies reference the
namespaced storage record, derived from the contract name. -/
def toStorageStructInstantiation (contractName : String) : String :=
  contractName ++ "Storage storage $ = _get" ++ contractName ++ "Storage();"

namespace Solidity

/-- The `parents` table of `set-access-control.ts` (Solidity): `Ownable`. -/
def parents.Ownable : ParentContract :=
  { name := "Ownable", path := "@openzeppelin/contracts/access/Ownable.sol" }

/-- The `parents` table of `set-access-control.ts` (Solidity): `AccessControl`. -/
def parents.AccessControl : ParentContract :=
  { name := "AccessControl", path := "@openzeppelin/contracts/access/AccessControl.sol" }

/-- The `parents` table of `set-access-control.ts` (Solidity): `AccessManaged`. -/
def parents.AccessManaged : ParentContract :=
  { name := "AccessManaged", path := "@openzeppelin/contracts/access/manager/AccessManaged.sol" }

/-- Modelled from the spec: the `supportsInterface` descriptor comes from
`common-functions.ts`, which is not among the sources; it is the ERC-165
view function overridden for the `AccessControl` parent. -/
def supportsInterface : BaseFunction :=
  { name := "supportsInterface"
    args := [{ type := "bytes4", name := "interfaceId" }]
    returns := ["bool"]
    kind := "public"
    mutability := some "view" }

/-- The declared variant set of the Solidity `access` option:
`accessOptions = [false, 'ownable', 'roles', 'managed']`. -/
def accessOptions : List JsAccess :=
  [.jsFalse, .jsStr "ownable", .jsStr "roles", .jsStr "managed"]

/-- Sets access control for the contract by adding inheritance
(`setAccessControl` of `set-access-control.ts`, Solidity). The `switch` has
cases for `'ownable'`, `'roles'` and `'managed'` and no `default`, so any
other runtime value falls through and leaves the builder unchanged. -/
def setAccessControl (c : ContractBuilder) (access : JsAccess) : ContractBuilder :=
  match access with
  | .jsFalse => c
  | .jsStr s =>
    if s = "ownable" then
      let r := c.addParent parents.Ownable ["initialOwner"]
      if r.1 then
        (r.2.addConstructorArgument { type := "address", name := "initialOwner" }).addConstructorCode
          "require(initialOwner != address(0), \"Ownable: initial owner is zero address\");"
      else r.2
    else if s = "roles" then
      let r := c.addParent parents.AccessControl []
      let c2 :=
        if r.1 then
          ((r.2.addConstructorArgument { type := "address", name := "defaultAdmin" }).addConstructorCode
            "require(defaultAdmin != address(0), \"AccessControl: default admin is zero address\");").addConstructorCode
            "_grantRole(DEFAULT_ADMIN_ROLE, defaultAdmin);"
        else r.2
      c2.addOverride parents.AccessControl supportsInterface
    else if s = "managed" then
      let r := c.addParent parents.AccessManaged ["initialAuthority"]
      if r.1 then
        (r.2.addConstructorArgument { type := "address", name := "initialAuthority" }).addConstructorCode
          "require(initialAuthority != address(0), \"AccessManaged: initial authority is zero address\");"
      else r.2
    else c

/-- Enables access control and restricts the given function
(`requireAccessControl` of `set-access-control.ts`, Solidity): `false` is
replaced by `'ownable'`, then `setAccessControl` runs, then the mode's
modifier is attached; the `switch` again has no `default` case. -/
def requireAccessControl (c : ContractBuilder) (fn : BaseFunction)
    (access : JsAccess) (roleIdPfx : String) (roleOwner : Option String) :
    ContractBuilder :=
  let access := if access = .jsFalse then .jsStr "ownable" else access
  let c := setAccessControl c access
  match access with
  | .jsFalse => c
  | .jsStr s =>
    if s = "ownable" then c.addModifier "onlyOwner" fn
    else if s = "roles" then
      let roleId := roleIdPfx ++ "_ROLE"
      let r := c.addConstantOrImmutableOrErrorDefinition
        ("bytes32 public constant " ++ roleId ++ " = keccak256(\"" ++ roleId ++ "\");") []
      let c2 :=
        match roleOwner with
        | some ro =>
          if r.1 then
            ((r.2.addConstructorArgument { type := "address", name := ro }).addConstructorCode
              ("require(" ++ ro ++ " != address(0), \"AccessControl: role owner is zero address\");")).addConstructorCode
              ("_grantRole(" ++ roleId ++ ", " ++ ro ++ ");")
          else r.2
        | none => r.2
      c2.addModifier ("onlyRole(" ++ roleId ++ ")") fn
    else if s = "managed" then c.addModifier "restricted" fn
    else c

end Solidity

/-- Model of JavaScript `String.prototype.trimEnd`: removes trailing
whitespace characters. -/
def trimEnd (s : String) : String :=
  ⟨(s.data.reverse.dropWhile Char.isWhitespace).reverse⟩

namespace Solidity.Structured

/-- The `isAddressVerified` descriptor of the structured
`add-address-verification.ts` (`defineFunctions`). -/
def functions.isAddressVerified : BaseFunction :=
  { name := "isAddressVerified"
    args := [{ type := "address", name := "account" }]
    returns := ["bool"]
    kind := "public"
    mutability := some "view" }

/-- The `verifyAddressOwnership` descriptor of the structured
`add-address-verification.ts` (`defineFunctions`). -/
def functions.verifyAddressOwnership : BaseFunction :=
  { name := "verifyAddressOwnership"
    args := [{ type := "bytes32", name := "message" },
             { type := "bytes", name := "signature" }]
    returns := []
    kind := "public"
    mutability := none }

/-- The `revokeAddressVerification` descriptor of the structured
`add-address-verification.ts` (`defineFunctions`). -/
def functions.revokeAddressVerification : BaseFunction :=
  { name := "revokeAddressVerification"
    args := [{ type := "address", name := "account" }]
    returns := []
    kind := "public"
    mutability := none }

/-- `addIsAddressVerifiedFunction` of the structured
`add-address-verification.ts`: body reads the verified flag, through the
namespaced-storage accessor on upgradeable builds. -/
def addIsAddressVerifiedFunction (c : ContractBuilder) :
    Except BuildError ContractBuilder :=
  let storageAccess :=
    if c.upgradeable then toStorageStructInstantiation c.name ++ "\n" else ""
  let verifiedAddressesAccess :=
    if c.upgradeable then "$._verifiedAddresses[account]" else "_verifiedAddresses[account]"
  c.addFunctionCode (storageAccess ++ "return " ++ verifiedAddressesAccess ++ ";")
    functions.isAddressVerified

/-- `addVerifyAddressOwnershipFunction` of the structured
`add-address-verification.ts`: EIP-191 hash, ECDSA recover, duplicate check,
mark verified, emit event; empty lines are filtered before joining. -/
def addVerifyAddressOwnershipFunction (c : ContractBuilder) :
    Except BuildError ContractBuilder :=
  let storageAccess :=
    if c.upgradeable then toStorageStructInstantiation c.name ++ "\n" else ""
  let verifiedAddressesRef :=
    if c.upgradeable then "$._verifiedAddresses" else "_verifiedAddresses"
  c.addFunctionCode
    (String.intercalate "\n"
      (([trimEnd storageAccess,
        "// Hash the message according to EIP-191",
        "bytes32 ethSignedMessageHash = MessageHashUtils.toEthSignedMessageHash(message);",
        "",
        "// Recover the signer address from the signature",
        "address recoveredAddress = ECDSA.recover(ethSignedMessageHash, signature);",
        "",
        "// Check if the recovered address matches the sender",
        "if (recoveredAddress != msg.sender) \x7b",
        "    revert InvalidSignature();",
        "\x7d",
        "",
        "// Check if already verified",
        "if (" ++ verifiedAddressesRef ++ "[msg.sender]) \x7b",
        "    revert AlreadyVerified();",
        "\x7d",
        "",
        "// Mark the address as verified",
        verifiedAddressesRef ++ "[msg.sender] = true;",
        "",
        "// Emit verification event",
        "emit AddressVerified(msg.sender);"]).filter (fun l => l ≠ "")))
    functions.verifyAddressOwnership

/-- `addRevokeAddressVerificationFunction` of the structured
`add-address-verification.ts`: restricts the function through
`requireAccessControl` (role prefix `DEFAULT_ADMIN_ROLE`, no role owner),
then sets its body. -/
def addRevokeAddressVerificationFunction (c : ContractBuilder)
    (access : JsAccess) : Except BuildError ContractBuilder :=
  let c := Solidity.requireAccessControl c functions.revokeAddressVerification
    access "DEFAULT_ADMIN_ROLE" none
  let storageAccess :=
    if c.upgradeable then toStorageStructInstantiation c.name ++ "\n" else ""
  let verifiedAddressesRef :=
    if c.upgradeable then "$._verifiedAddresses" else "_verifiedAddresses"
  c.addFunctionCode
    (String.intercalate "\n"
      (([trimEnd storageAccess,
        "// Revoke verification",
        verifiedAddressesRef ++ "[account] = false;",
        "",
        "// Emit revocation event",
        "emit VerificationRevoked(account);"]).filter (fun l => l ≠ "")))
    functions.revokeAddressVerification

/-- `addAddressVerification` of the structured variant of
`add-address-verification.ts`: imports, structured event/error definitions,
namespaced storage (upgradeable) or a plain state variable, then the three
functions, the revoke function only when `access` is truthy. -/
def addAddressVerification (c : ContractBuilder) (access : JsAccess) :
    Except BuildError ContractBuilder :=
  match c.addImportOnly "ECDSA" "@openzeppelin/contracts/utils/cryptography/ECDSA.sol" with
  | .error e => .error e
  | .ok (_, c) =>
  match c.addImportOnly "MessageHashUtils" "@openzeppelin/contracts/utils/cryptography/MessageHashUtils.sol" with
  | .error e => .error e
  | .ok (_, c) =>
  let c := (c.addConstantOrImmutableOrErrorDefinition
    "event AddressVerified(address indexed account);"
    ["/// @dev Emitted when an address is verified"]).2
  let c := (c.addConstantOrImmutableOrErrorDefinition
    "event VerificationRevoked(address indexed account);"
    ["/// @dev Emitted when address verification is revoked"]).2
  let c := (c.addConstantOrImmutableOrErrorDefinition
    "error InvalidSignature();"
    ["/// @dev Error thrown when signature verification fails"]).2
  let c := (c.addConstantOrImmutableOrErrorDefinition
    "error AlreadyVerified();"
    ["/// @dev Error thrown when address is already verified"]).2
  let c :=
    if c.upgradeable then
      setNamespacedStorage c
        ["mapping(address account => bool verified) _verifiedAddresses"]
        "openzeppelin.storage"
    else
      c.addStateVariable "mapping(address => bool) private _verifiedAddresses;" false
  match addIsAddressVerifiedFunction c with
  | .error e => .error e
  | .ok c =>
  match addVerifyAddressOwnershipFunction c with
  | .error e => .error e
  | .ok c =>
  if access.truthy then addRevokeAddressVerificationFunction c access else .ok c

end Solidity.Structured

namespace Solidity.Freeform

/-- The `isAddressVerified` descriptor of the freeform
`add-address-verification.ts`, with its inline body code. -/
def functions.isAddressVerified : BaseFunction × List String :=
  ({ name := "isAddressVerified"
     args := [{ type := "address", name := "account" }]
     returns := ["bool"]
     kind := "public"
     mutability := none },
   ["return _verifiedAddresses[account];"])

/-- The `verifyAddressOwnership` descriptor of the freeform
`add-address-verification.ts`, with its inline body code. -/
def functions.verifyAddressOwnership : BaseFunction × List String :=
  ({ name := "verifyAddressOwnership"
     args := [{ type := "bytes32", name := "message" },
              { type := "bytes", name := "signature" }]
     returns := []
     kind := "public"
     mutability := none },
   ["// Hash the message according to EIP-191",
    "bytes32 ethSignedMessageHash = MessageHashUtils.toEthSignedMessageHash(message);",
    "",
    "// Recover the signer address from the signature",
    "address recoveredAddress = ECDSA.recover(ethSignedMessageHash, signature);",
    "",
    "// Check if the recovered address matches the sender",
    "if (recoveredAddress != msg.sender) \x7b",
    "    revert InvalidSignature();",
    "\x7d",
    "",
    "// Check if already verified",
    "if (_verifiedAddresses[msg.sender]) \x7b",
    "    revert AlreadyVerified();",
    "\x7d",
    "",
    "// Mark the address as verified",
    "_verifiedAddresses[msg.sender] = true;",
    "",
    "// Emit verification event",
    "emit AddressVerified(msg.sender);"])

/-- The `revokeAddressVerification` descriptor of the freeform
`add-address-verification.ts`, with its inline body code. -/
def functions.revokeAddressVerification : BaseFunction × List String :=
  ({ name := "revokeAddressVerification"
     args := [{ type := "address", name := "account" }]
     returns := []
     kind := "public"
     mutability := none },
   ["// Revoke verification",
    "_verifiedAddresses[account] = false;",
    "",
    "// Emit revocation event",
    "emit VerificationRevoked(account);"])

/-- `addAddressVerification` of the freeform variant of
`add-address-verification.ts`: imports, then the mapping, events and errors
as freeform `addVariable` text blocks, then the functions with inline code;
when `access` is truthy only `requireAccessControl` runs for the revoke
function. -/
def addAddressVerification (c : ContractBuilder) (access : JsAccess) :
    Except BuildError ContractBuilder :=
  match c.addImportOnly "ECDSA" "@openzeppelin/contracts/utils/cryptography/ECDSA.sol" with
  | .error e => .error e
  | .ok (_, c) =>
  match c.addImportOnly "MessageHashUtils" "@openzeppelin/contracts/utils/cryptography/MessageHashUtils.sol" with
  | .error e => .error e
  | .ok (_, c) =>
  let c := c.addVariable
    "\n    // Mapping to track addresses that have been verified\n    mapping(address => bool) private _verifiedAddresses;\n  "
  let c := c.addVariable
    "\n    // Event emitted when an address is verified\n    event AddressVerified(address indexed account);\n  "
  let c := c.addVariable
    "\n    // Event emitted when address verification is revoked\n    event VerificationRevoked(address indexed account);\n  "
  let c := c.addVariable
    "\n    // Error thrown when signature verification fails\n    error InvalidSignature();\n  "
  let c := c.addVariable
    "\n    // Error thrown when address is already verified\n    error AlreadyVerified();\n  "
  let c := c.addFunction functions.isAddressVerified.1 functions.isAddressVerified.2
  let c := c.addFunction functions.verifyAddressOwnership.1 functions.verifyAddressOwnership.2
  .ok (if access.truthy then
        Solidity.requireAccessControl c functions.revokeAddressVerification.1
          access "DEFAULT_ADMIN_ROLE" none
      else c)

end Solidity.Freeform

namespace Stylus

/-- A trait implemented by a Stylus contract (`ContractTrait`). -/
structure ContractTrait where
  name : String
  storageName : String
  storageType : String
deriving DecidableEq, Repr

/-- The Stylus contract model: use clauses, implemented traits, constants and
per-function guard code. All access-control operations leave it untouched. -/
structure StylusBuilder where
  useClauses : List (String × String)
  traits : List ContractTrait
  constants : List String
  functionGuards : List (String × List String)
deriving DecidableEq, Repr

/-- A fresh, empty Stylus contract model. -/
def emptyStylusBuilder : StylusBuilder :=
  { useClauses := [], traits := [], constants := [], functionGuards := [] }

/-- The declared variant set of the Stylus `access` option:
`accessOptions = [false, 'ownable', 'roles']`. -/
def accessOptions : List JsAccess :=
  [.jsFalse, .jsStr "ownable", .jsStr "roles"]

/-- `DEFAULT_ACCESS_CONTROL = 'ownable'` of the Stylus
`set-access-control.ts`. -/
def DEFAULT_ACCESS_CONTROL : JsAccess := .jsStr "ownable"

/-- `setAccessControl` of the Stylus `set-access-control.ts`: every variant
case is commented out (the implementation is documented as non-functional),
so in-set values return the builder unchanged; the `default` case throws
`Error('Unknown value for access')`. -/
def setAccessControl (c : StylusBuilder) (access : JsAccess) :
    Except String StylusBuilder :=
  match access with
  | .jsFalse => .ok c
  | .jsStr s =>
    if s = "ownable" then .ok c
    else if s = "roles" then .ok c
    else .error "Unknown value for `access`"

/-- `requireAccessControl` of the Stylus `set-access-control.ts`: `false` is
replaced by `DEFAULT_ACCESS_CONTROL`, `setAccessControl` runs, and the
per-mode guard insertion is commented out, so in-set values return the
builder unchanged; the `default` case throws. -/
def requireAccessControl (c : StylusBuilder) (_trait : ContractTrait)
    (_fn : BaseFunction) (access : JsAccess) (_roleIdPfx : String)
    (_roleOwner : Option String) : Except String StylusBuilder :=
  let access := if access = .jsFalse then DEFAULT_ACCESS_CONTROL else access
  match setAccessControl c access with
  | .error e => .error e
  | .ok c =>
    match access with
    | .jsFalse => .error "Unknown value for `access`"
    | .jsStr s =>
      if s = "ownable" then .ok c
      else if s = "roles" then .ok c
      else .error "Unknown value for `access`"

end Stylus

/-- A fresh, empty contract model for a non-upgradeable build session. -/
def emptyBuilder : ContractBuilder :=
  { name := "MyContract", upgradeable := false, parents := [], imports := []
    constants := [], constructorArgs := [], constructorCode := []
    stateVariables := [], variableBlocks := [], storageEntries := [], functions := [] }

/-- A fresh, empty contract model for an upgradeable build session. -/
def emptyUpgradeableBuilder : ContractBuilder :=
  { emptyBuilder with upgradeable := true }

/-- The successful result of a build step, defaulting to the empty model on
error; used to state concrete witnesses. -/
def getOk (r : Except BuildError ContractBuilder) : ContractBuilder :=
  match r with
  | .ok c => c
  | .error _ => emptyBuilder

/-! Frame lemmas: each builder operation touches a single component. -/

@[simp] lemma addConstructorCode_parents (c : ContractBuilder) (s : String) :
    (c.addConstructorCode s).parents = c.parents := rfl

@[simp] lemma addConstructorCode_constants (c : ContractBuilder) (s : String) :
    (c.addConstructorCode s).constants = c.constants := rfl

@[simp] lemma addConstructorCode_constructorArgs (c : ContractBuilder) (s : String) :
    (c.addConstructorCode s).constructorArgs = c.constructorArgs := rfl

@[simp] lemma addConstructorCode_functions (c : ContractBuilder) (s : String) :
    (c.addConstructorCode s).functions = c.functions := rfl

@[simp] lemma addConstructorCode_constructorCode (c : ContractBuilder) (s : String) :
    (c.addConstructorCode s).constructorCode = c.constructorCode ++ [s] := rfl

@[simp] lemma addConstructorArgument_parents (c : ContractBuilder) (a : FunctionArgument) :
    (c.addConstructorArgument a).parents = c.parents := rfl

@[simp] lemma addConstructorArgument_constants (c : ContractBuilder) (a : FunctionArgument) :
    (c.addConstructorArgument a).constants = c.constants := rfl

@[simp] lemma addConstructorArgument_constructorCode (c : ContractBuilder) (a : FunctionArgument) :
    (c.addConstructorArgument a).constructorCode = c.constructorCode := rfl

@[simp] lemma addConstructorArgument_functions (c : ContractBuilder) (a : FunctionArgument) :
    (c.addConstructorArgument a).functions = c.functions := rfl

@[simp] lemma ensureFunction_parents (c : ContractBuilder) (f : BaseFunction) :
    (c.ensureFunction f).parents = c.parents := rfl

@[simp] lemma ensureFunction_constants (c : ContractBuilder) (f : BaseFunction) :
    (c.ensureFunction f).constants = c.constants := rfl

@[simp] lemma ensureFunction_constructorArgs (c : ContractBuilder) (f : BaseFunction) :
    (c.ensureFunction f).constructorArgs = c.constructorArgs := rfl

@[simp] lemma ensureFunction_constructorCode (c : ContractBuilder) (f : BaseFunction) :
    (c.ensureFunction f).constructorCode = c.constructorCode := rfl

@[simp] lemma addModifier_parents (c : ContractBuilder) (m : String) (f : BaseFunction) :
    (c.addModifier m f).parents = c.parents := rfl

@[simp] lemma addModifier_constants (c : ContractBuilder) (m : String) (f : BaseFunction) :
    (c.addModifier m f).constants = c.constants := rfl

@[simp] lemma addModifier_constructorArgs (c : ContractBuilder) (m : String) (f : BaseFunction) :
    (c.addModifier m f).constructorArgs = c.constructorArgs := rfl

@[simp] lemma addModifier_constructorCode (c : ContractBuilder) (m : String) (f : BaseFunction) :
    (c.addModifier m f).constructorCode = c.constructorCode := rfl

@[simp] lemma addOverride_parents (c : ContractBuilder) (p : ParentContract) (f : BaseFunction) :
    (c.addOverride p f).parents = c.parents := rfl

@[simp] lemma addOverride_constants (c : ContractBuilder) (p : ParentContract) (f : BaseFunction) :
    (c.addOverride p f).constants = c.constants := rfl

@[simp] lemma addOverride_constructorArgs (c : ContractBuilder) (p : ParentContract) (f : BaseFunction) :
    (c.addOverride p f).constructorArgs = c.constructorArgs := rfl

@[simp] lemma addOverride_constructorCode (c : ContractBuilder) (p : ParentContract) (f : BaseFunction) :
    (c.addOverride p f).constructorCode = c.constructorCode := rfl

@[simp] lemma addConstant_snd_parents (c : ContractBuilder) (d : String) (docs : List String) :
    ((c.addConstantOrImmutableOrErrorDefinition d docs).2).parents = c.parents := by
  unfold ContractBuilder.addConstantOrImmutableOrErrorDefinition
  split <;> rfl

@[simp] lemma addConstant_snd_constructorArgs (c : ContractBuilder) (d : String) (docs : List String) :
    ((c.addConstantOrImmutableOrErrorDefinition d docs).2).constructorArgs = c.constructorArgs := by
  unfold ContractBuilder.addConstantOrImmutableOrErrorDefinition
  split <;> rfl

@[simp] lemma addConstant_snd_constructorCode (c : ContractBuilder) (d : String) (docs : List String) :
    ((c.addConstantOrImmutableOrErrorDefinition d docs).2).constructorCode = c.constructorCode := by
  unfold ContractBuilder.addConstantOrImmutableOrErrorDefinition
  split <;> rfl

@[simp] lemma addConstant_snd_functions (c : ContractBuilder) (d : String) (docs : List String) :
    ((c.addConstantOrImmutableOrErrorDefinition d docs).2).functions = c.functions := by
  unfold ContractBuilder.addConstantOrImmutableOrErrorDefinition
  split <;> rfl

/-! Behaviour of `addParent`, `hasParent` and `addConstantOrImmutableOrErrorDefinition`. -/

lemma addParent_of_hasParent (c : ContractBuilder) (p : ParentContract) (ps : List String)
    (h : c.hasParent p = true) : c.addParent p ps = (false, c) := by
  simp [ContractBuilder.addParent, h]

lemma addParent_of_not_hasParent (c : ContractBuilder) (p : ParentContract) (ps : List String)
    (h : c.hasParent p = false) :
    c.addParent p ps = (true, { c with parents := c.parents ++ [⟨p, ps⟩] }) := by
  simp [ContractBuilder.addParent, h]

lemma hasParent_append_self (c : ContractBuilder) (p : ParentContract) (ps : List String) :
    ({ c with parents := c.parents ++ [⟨p, ps⟩] } : ContractBuilder).hasParent p = true := by
  simp [ContractBuilder.hasParent]

lemma mem_parents_addParent (c : ContractBuilder) (p : ParentContract) (ps : List String) :
    p.name ∈ ((c.addParent p ps).2).parents.map (fun q => q.contract.name) := by
  unfold ContractBuilder.addParent
  split
  · next h =>
    simp only [ContractBuilder.hasParent, List.any_eq_true, beq_iff_eq] at h
    obtain ⟨q, hq, hname⟩ := h
    exact List.mem_map.mpr ⟨q, hq, hname⟩
  · simp

lemma addConstant_of_hasConstant (c : ContractBuilder) (d : String) (docs : List String)
    (h : c.hasConstant d = true) :
    c.addConstantOrImmutableOrErrorDefinition d docs = (false, c) := by
  simp [ContractBuilder.addConstantOrImmutableOrErrorDefinition, h]

lemma addConstant_of_not_hasConstant (c : ContractBuilder) (d : String) (docs : List String)
    (h : c.hasConstant d = false) :
    c.addConstantOrImmutableOrErrorDefinition d docs
      = (true, { c with constants := c.constants ++ [(d, docs)] }) := by
  simp [ContractBuilder.addConstantOrImmutableOrErrorDefinition, h]

lemma mem_constants_addConstant (c : ContractBuilder) (d : String) (docs : List String) :
    d ∈ ((c.addConstantOrImmutableOrErrorDefinition d docs).2).constants.map (fun e => e.1) := by
  unfold ContractBuilder.addConstantOrImmutableOrErrorDefinition
  split
  · next h =>
    simp only [ContractBuilder.hasConstant, List.any_eq_true, beq_iff_eq] at h
    obtain ⟨e, he, hd⟩ := h
    exact List.mem_map.mpr ⟨e, he, hd⟩
  · simp

/-! Function-table lemmas. -/

lemma addModifierToList_map_fn (m : String) (key : String × List String)
    (l : List ContractFunction) :
    (addModifierToList m key l).map (fun e => e.fn) = l.map (fun e => e.fn) := by
  induction l with
  | nil => rfl
  | cons e rest ih =>
    unfold addModifierToList
    split
    · split <;> simp
    · simp [ih]

lemma addOverrideToList_map_fn (pn : String) (key : String × List String)
    (l : List ContractFunction) :
    (addOverrideToList pn key l).map (fun e => e.fn) = l.map (fun e => e.fn) := by
  induction l with
  | nil => rfl
  | cons e rest ih =>
    unfold addOverrideToList
    split
    · split <;> simp
    · simp [ih]

lemma setCodeInList_ok_map_fn (code : String) (key : String × List String)
    (l l' : List ContractFunction) (h : setCodeInList code key l = .ok l') :
    l'.map (fun e => e.fn) = l.map (fun e => e.fn) := by
  induction l generalizing l' with
  | nil =>
    unfold setCodeInList at h
    cases h
    rfl
  | cons e rest ih =>
    unfold setCodeInList at h
    split at h
    · split at h
      · cases h
      · cases h
        simp
    · revert h
      split
      · next heq =>
        intro h
        cases h
        simp [ih _ heq]
      · intro h
        cases h

lemma hasKey_eq_of_map_fn (l l' : List ContractFunction) (key : String × List String)
    (h : l'.map (fun e => e.fn) = l.map (fun e => e.fn)) :
    l'.any (fun e => fnSig e.fn == key) = l.any (fun e => fnSig e.fn == key) := by
  have hall : ∀ L : List ContractFunction,
      (L.any fun e => fnSig e.fn == key)
        = ((L.map fun e => e.fn).any fun f => fnSig f == key) := by
    intro L
    induction L with
    | nil => rfl
    | cons e rest ih => simp [ih]
  rw [hall l', hall l, h]

lemma hasFunction_ensureFunction_self (c : ContractBuilder) (f : BaseFunction) :
    (c.ensureFunction f).hasFunction f = true := by
  unfold ContractBuilder.ensureFunction ContractBuilder.hasFunction
  split
  · next h => exact h
  · simp

lemma hasFunction_ensureFunction_ne (c : ContractBuilder) (f g : BaseFunction)
    (h : (fnSig g == fnSig f) = false) :
    (c.ensureFunction g).hasFunction f = c.hasFunction f := by
  unfold ContractBuilder.ensureFunction ContractBuilder.hasFunction
  split
  · rfl
  · simp [h]

lemma hasFunction_addModifier (c : ContractBuilder) (m : String) (f g : BaseFunction) :
    (c.addModifier m g).hasFunction f = (c.ensureFunction g).hasFunction f := by
  unfold ContractBuilder.addModifier ContractBuilder.hasFunction
  exact hasKey_eq_of_map_fn _ _ _ (addModifierToList_map_fn _ _ _)

lemma hasFunction_addOverride (c : ContractBuilder) (p : ParentContract) (f g : BaseFunction) :
    (c.addOverride p g).hasFunction f = (c.ensureFunction g).hasFunction f := by
  unfold ContractBuilder.addOverride ContractBuilder.hasFunction
  exact hasKey_eq_of_map_fn _ _ _ (addOverrideToList_map_fn _ _ _)

lemma addFunctionCode_ok_shape (c : ContractBuilder) (code : String) (g : BaseFunction)
    (d : ContractBuilder) (h : c.addFunctionCode code g = .ok d) :
    ∃ l, setCodeInList code (fnSig g) (c.ensureFunction g).functions = .ok l ∧
      d = { c.ensureFunction g with functions := l } := by
  unfold ContractBuilder.addFunctionCode at h
  revert h
  split
  · next l heq =>
    intro h
    cases h
    exact ⟨l, heq, rfl⟩
  · intro h
    cases h

lemma hasFunction_addFunctionCode (c d : ContractBuilder) (code : String) (f g : BaseFunction)
    (h : c.addFunctionCode code g = .ok d) :
    d.hasFunction f = (c.ensureFunction g).hasFunction f := by
  obtain ⟨l, heq, rfl⟩ := addFunctionCode_ok_shape c code g d h
  unfold ContractBuilder.hasFunction
  exact hasKey_eq_of_map_fn _ _ _ (setCodeInList_ok_map_fn _ _ _ _ heq)

lemma find?_eq_none_of_not_hasFunction (c : ContractBuilder) (f : BaseFunction)
    (h : c.hasFunction f = false) :
    c.functions.find? (fun e => fnSig e.fn == fnSig f) = none := by
  unfold ContractBuilder.hasFunction at h
  rw [List.find?_eq_none]
  intro e he hbe
  have : c.functions.any (fun e => fnSig e.fn == fnSig f) = true :=
    List.any_eq_true.mpr ⟨e, he, hbe⟩
  rw [h] at this
  cases this

lemma modifiersOf_eq_nil_of_not_hasFunction (c : ContractBuilder) (f : BaseFunction)
    (h : c.hasFunction f = false) : c.modifiersOf f = [] := by
  unfold ContractBuilder.modifiersOf
  rw [find?_eq_none_of_not_hasFunction c f h]

/-! Step equations for the list-level helpers. -/

lemma find?_fnSig_cons_pos (key : String × List String) (e : ContractFunction)
    (rest : List ContractFunction) (h : (fnSig e.fn == key) = true) :
    (e :: rest).find? (fun x => fnSig x.fn == key) = some e := by
  simp [List.find?, h]

lemma find?_fnSig_cons_neg (key : String × List String) (e : ContractFunction)
    (rest : List ContractFunction) (h : (fnSig e.fn == key) = false) :
    (e :: rest).find? (fun x => fnSig x.fn == key)
      = rest.find? (fun x => fnSig x.fn == key) := by
  simp [List.find?, h]

lemma addModifierToList_cons_pos (m : String) (key : String × List String)
    (e : ContractFunction) (rest : List ContractFunction)
    (h : (fnSig e.fn == key) = true) :
    addModifierToList m key (e :: rest)
      = (if m ∈ e.modifiers then e else { e with modifiers := e.modifiers ++ [m] }) :: rest := by
  show (if (fnSig e.fn == key) = true then
      (if m ∈ e.modifiers then e else { e with modifiers := e.modifiers ++ [m] }) :: rest
    else e :: addModifierToList m key rest) = _
  rw [if_pos h]

lemma addModifierToList_cons_neg (m : String) (key : String × List String)
    (e : ContractFunction) (rest : List ContractFunction)
    (h : (fnSig e.fn == key) = false) :
    addModifierToList m key (e :: rest) = e :: addModifierToList m key rest := by
  show (if (fnSig e.fn == key) = true then
      (if m ∈ e.modifiers then e else { e with modifiers := e.modifiers ++ [m] }) :: rest
    else e :: addModifierToList m key rest) = _
  rw [if_neg (by simp [h])]

lemma addOverrideToList_cons_pos (pn : String) (key : String × List String)
    (e : ContractFunction) (rest : List ContractFunction)
    (h : (fnSig e.fn == key) = true) :
    addOverrideToList pn key (e :: rest)
      = (if pn ∈ e.overrides then e else { e with overrides := e.overrides ++ [pn] }) :: rest := by
  show (if (fnSig e.fn == key) = true then
      (if pn ∈ e.overrides then e else { e with overrides := e.overrides ++ [pn] }) :: rest
    else e :: addOverrideToList pn key rest) = _
  rw [if_pos h]

lemma addOverrideToList_cons_neg (pn : String) (key : String × List String)
    (e : ContractFunction) (rest : List ContractFunction)
    (h : (fnSig e.fn == key) = false) :
    addOverrideToList pn key (e :: rest) = e :: addOverrideToList pn key rest := by
  show (if (fnSig e.fn == key) = true then
      (if pn ∈ e.overrides then e else { e with overrides := e.overrides ++ [pn] }) :: rest
    else e :: addOverrideToList pn key rest) = _
  rw [if_neg (by simp [h])]

/-! The accumulated-modifier observations, through each operation. -/

lemma modifiersOf_def (c : ContractBuilder) (f : BaseFunction) :
    c.modifiersOf f
      = ((c.functions.find? (fun e => fnSig e.fn == fnSig f)).map
          (fun e => e.modifiers)).getD [] := by
  unfold ContractBuilder.modifiersOf
  cases c.functions.find? (fun e => fnSig e.fn == fnSig f) <;> rfl

lemma overridesOf_def (c : ContractBuilder) (f : BaseFunction) :
    c.overridesOf f
      = ((c.functions.find? (fun e => fnSig e.fn == fnSig f)).map
          (fun e => e.overrides)).getD [] := by
  unfold ContractBuilder.overridesOf
  cases c.functions.find? (fun e => fnSig e.fn == fnSig f) <;> rfl

lemma find?_addModifierToList (m : String) (key : String × List String)
    (l : List ContractFunction) :
    (addModifierToList m key l).find? (fun e => fnSig e.fn == key)
      = (l.find? (fun e => fnSig e.fn == key)).map
          (fun e => if m ∈ e.modifiers then e
                    else { e with modifiers := e.modifiers ++ [m] }) := by
  induction l with
  | nil => rfl
  | cons e rest ih =>
    by_cases h : (fnSig e.fn == key) = true
    · rw [addModifierToList_cons_pos m key e rest h]
      by_cases hm : m ∈ e.modifiers
      · rw [if_pos hm]
        rw [find?_fnSig_cons_pos key e rest h]
        simp [hm]
      · rw [if_neg hm]
        have h2 : (fnSig ({ e with modifiers := e.modifiers ++ [m] } : ContractFunction).fn == key) = true := h
        rw [find?_fnSig_cons_pos key _ rest h2, find?_fnSig_cons_pos key e _ h]
        simp [hm]
    · have h' : (fnSig e.fn == key) = false := Bool.eq_false_iff.mpr h
      rw [addModifierToList_cons_neg m key e rest h']
      rw [find?_fnSig_cons_neg key e _ h', find?_fnSig_cons_neg key e _ h', ih]

lemma find?_addOverrideToList (pn : String) (key : String × List String)
    (l : List ContractFunction) :
    (addOverrideToList pn key l).find? (fun e => fnSig e.fn == key)
      = (l.find? (fun e => fnSig e.fn == key)).map
          (fun e => if pn ∈ e.overrides then e
                    else { e with overrides := e.overrides ++ [pn] }) := by
  induction l with
  | nil => rfl
  | cons e rest ih =>
    by_cases h : (fnSig e.fn == key) = true
    · rw [addOverrideToList_cons_pos pn key e rest h]
      by_cases hm : pn ∈ e.overrides
      · rw [if_pos hm]
        rw [find?_fnSig_cons_pos key e rest h]
        simp [hm]
      · rw [if_neg hm]
        have h2 : (fnSig ({ e with overrides := e.overrides ++ [pn] } : ContractFunction).fn == key) = true := h
        rw [find?_fnSig_cons_pos key _ rest h2, find?_fnSig_cons_pos key e _ h]
        simp [hm]
    · have h' : (fnSig e.fn == key) = false := Bool.eq_false_iff.mpr h
      rw [addOverrideToList_cons_neg pn key e rest h']
      rw [find?_fnSig_cons_neg key e _ h', find?_fnSig_cons_neg key e _ h', ih]

lemma modifiersOf_ensureFunction (c : ContractBuilder) (f g : BaseFunction) :
    (c.ensureFunction g).modifiersOf f = c.modifiersOf f := by
  rw [modifiersOf_def, modifiersOf_def]
  unfold ContractBuilder.ensureFunction
  by_cases hg : c.hasFunction g = true
  · simp [hg]
  · have hg' : c.hasFunction g = false := Bool.eq_false_iff.mpr hg
    simp only [hg', Bool.false_eq_true, if_false]
    show (((c.functions ++ [(⟨g, [], [], []⟩ : ContractFunction)]).find?
        (fun e => fnSig e.fn == fnSig f)).map (fun e => e.modifiers)).getD [] = _
    rw [List.find?_append]
    cases hf : c.functions.find? (fun e => fnSig e.fn == fnSig f) with
    | some e => simp
    | none =>
      simp only [Option.none_or]
      by_cases hgf : (fnSig g == fnSig f) = true
      · rw [find?_fnSig_cons_pos (fnSig f) (⟨g, [], [], []⟩ : ContractFunction) [] hgf]
        rfl
      · rw [find?_fnSig_cons_neg (fnSig f) (⟨g, [], [], []⟩ : ContractFunction) []
          (Bool.eq_false_iff.mpr hgf)]
        rfl

lemma modifiersOf_addModifier_self (c : ContractBuilder) (m : String) (f : BaseFunction) :
    (c.addModifier m f).modifiersOf f
      = if m ∈ c.modifiersOf f then c.modifiersOf f else c.modifiersOf f ++ [m] := by
  have hbase : (c.ensureFunction f).modifiersOf f = c.modifiersOf f :=
    modifiersOf_ensureFunction c f f
  rw [← hbase]
  rw [modifiersOf_def, modifiersOf_def]
  show (((addModifierToList m (fnSig f) (c.ensureFunction f).functions).find?
      (fun e => fnSig e.fn == fnSig f)).map (fun e => e.modifiers)).getD [] = _
  rw [find?_addModifierToList]
  cases hf : (c.ensureFunction f).functions.find? (fun e => fnSig e.fn == fnSig f) with
  | none =>
    exfalso
    have hs := hasFunction_ensureFunction_self c f
    unfold ContractBuilder.hasFunction at hs
    obtain ⟨e, he, hbe⟩ := List.any_eq_true.mp hs
    rw [List.find?_eq_none] at hf
    exact hf e he hbe
  | some e =>
    simp only [Option.map_some', Option.getD_some]
    by_cases hm : m ∈ e.modifiers
    · rw [if_pos hm, if_pos hm]
    · rw [if_neg hm, if_neg hm]

lemma mem_modifiersOf_addModifier (c : ContractBuilder) (m : String) (f : BaseFunction) :
    m ∈ (c.addModifier m f).modifiersOf f := by
  rw [modifiersOf_addModifier_self]
  split
  · assumption
  · simp

lemma modifiersOf_addModifier_of_not_hasFunction (c : ContractBuilder) (m : String)
    (f : BaseFunction) (h : c.hasFunction f = false) :
    (c.addModifier m f).modifiersOf f = [m] := by
  rw [modifiersOf_addModifier_self, modifiersOf_eq_nil_of_not_hasFunction c f h]
  simp

lemma find?_mods_setCodeInList (code : String) (key : String × List String)
    (l l' : List ContractFunction) (h : setCodeInList code key l = .ok l')
    (key2 : String × List String) :
    (l'.find? (fun e => fnSig e.fn == key2)).map (fun e => e.modifiers)
      = (l.find? (fun e => fnSig e.fn == key2)).map (fun e => e.modifiers) := by
  induction l generalizing l' with
  | nil =>
    unfold setCodeInList at h
    cases h
    rfl
  | cons e rest ih =>
    unfold setCodeInList at h
    split at h
    · split at h
      · cases h
      · cases h
        by_cases h2 : (fnSig e.fn == key2) = true
        · have h2b : (fnSig ({ e with code := [code] } : ContractFunction).fn == key2) = true := h2
          rw [find?_fnSig_cons_pos key2 _ rest h2b, find?_fnSig_cons_pos key2 e rest h2]
          rfl
        · have h2' := Bool.eq_false_iff.mpr h2
          have h2b : (fnSig ({ e with code := [code] } : ContractFunction).fn == key2) = false := h2'
          rw [find?_fnSig_cons_neg key2 _ rest h2b, find?_fnSig_cons_neg key2 e rest h2']
    · revert h
      split
      · next rest2 heq =>
        intro h
        cases h
        by_cases h2 : (fnSig e.fn == key2) = true
        · rw [find?_fnSig_cons_pos key2 e _ h2, find?_fnSig_cons_pos key2 e rest h2]
        · have h2' := Bool.eq_false_iff.mpr h2
          rw [find?_fnSig_cons_neg key2 e _ h2', find?_fnSig_cons_neg key2 e rest h2']
          exact ih _ heq
      · intro h
        cases h

lemma modifiersOf_addFunctionCode_ok (c d : ContractBuilder) (code : String)
    (g : BaseFunction) (h : c.addFunctionCode code g = .ok d) (f : BaseFunction) :
    d.modifiersOf f = c.modifiersOf f := by
  obtain ⟨l, heq, rfl⟩ := addFunctionCode_ok_shape c code g d h
  have h1 := find?_mods_setCodeInList code (fnSig g) (c.ensureFunction g).functions l heq (fnSig f)
  rw [← modifiersOf_ensureFunction c f g]
  rw [modifiersOf_def, modifiersOf_def]
  show ((l.find? (fun e => fnSig e.fn == fnSig f)).map (fun e => e.modifiers)).getD [] = _
  rw [h1]

lemma addOverrideToList_idem (pn : String) (key : String × List String)
    (l : List ContractFunction) :
    addOverrideToList pn key (addOverrideToList pn key l) = addOverrideToList pn key l := by
  induction l with
  | nil => rfl
  | cons e rest ih =>
    by_cases h : (fnSig e.fn == key) = true
    · rw [addOverrideToList_cons_pos pn key e rest h]
      by_cases hm : pn ∈ e.overrides
      · rw [if_pos hm, addOverrideToList_cons_pos pn key e rest h, if_pos hm]
      · rw [if_neg hm]
        have h2 : (fnSig ({ e with overrides := e.overrides ++ [pn] } : ContractFunction).fn == key) = true := h
        rw [addOverrideToList_cons_pos pn key _ rest h2,
          if_pos (by simp : pn ∈ e.overrides ++ [pn])]
    · have h' : (fnSig e.fn == key) = false := Bool.eq_false_iff.mpr h
      rw [addOverrideToList_cons_neg pn key e rest h']
      rw [addOverrideToList_cons_neg pn key e _ h', ih]

lemma ensureFunction_of_hasFunction (c : ContractBuilder) (f : BaseFunction)
    (h : c.hasFunction f = true) : c.ensureFunction f = c := by
  unfold ContractBuilder.ensureFunction
  simp [h]

lemma hasFunction_addOverride_self (c : ContractBuilder) (p : ParentContract)
    (f : BaseFunction) : (c.addOverride p f).hasFunction f = true := by
  rw [hasFunction_addOverride]
  exact hasFunction_ensureFunction_self c f

lemma addOverride_idem (c : ContractBuilder) (p : ParentContract) (f : BaseFunction) :
    (c.addOverride p f).addOverride p f = c.addOverride p f := by
  have h1 : (c.addOverride p f).hasFunction f = true := hasFunction_addOverride_self c p f
  show { (c.addOverride p f).ensureFunction f with
      functions := addOverrideToList p.name (fnSig f)
        ((c.addOverride p f).ensureFunction f).functions } = c.addOverride p f
  rw [ensureFunction_of_hasFunction _ _ h1]
  have h2 : addOverrideToList p.name (fnSig f) (c.addOverride p f).functions
      = (c.addOverride p f).functions := by
    show addOverrideToList p.name (fnSig f)
        (addOverrideToList p.name (fnSig f) ((c.ensureFunction f)).functions) = _
    exact addOverrideToList_idem p.name (fnSig f) _
  rw [h2]

lemma hasConstant_addConstant_self (c : ContractBuilder) (d : String) (docs : List String) :
    ((c.addConstantOrImmutableOrErrorDefinition d docs).2).hasConstant d = true := by
  unfold ContractBuilder.addConstantOrImmutableOrErrorDefinition
  split
  · next h => exact h
  · simp [ContractBuilder.hasConstant]

/-! Step equations for the Solidity access-control feature, by mode and by
whether the mode's parent is already present. -/

lemma setAccessControl_ownable_of_hasParent (c : ContractBuilder)
    (h : c.hasParent Solidity.parents.Ownable = true) :
    Solidity.setAccessControl c (.jsStr "ownable") = c := by
  simp only [Solidity.setAccessControl]
  simp [ContractBuilder.addParent, h]

lemma setAccessControl_ownable_of_not_hasParent (c : ContractBuilder)
    (h : c.hasParent Solidity.parents.Ownable = false) :
    Solidity.setAccessControl c (.jsStr "ownable")
      = (({ c with parents := c.parents ++ [({ contract := Solidity.parents.Ownable, params := ["initialOwner"] } : Parent)] }).addConstructorArgument
          { type := "address", name := "initialOwner" }).addConstructorCode
          "require(initialOwner != address(0), \"Ownable: initial owner is zero address\");" := by
  simp only [Solidity.setAccessControl]
  simp [ContractBuilder.addParent, h]

lemma setAccessControl_roles_of_hasParent (c : ContractBuilder)
    (h : c.hasParent Solidity.parents.AccessControl = true) :
    Solidity.setAccessControl c (.jsStr "roles")
      = c.addOverride Solidity.parents.AccessControl Solidity.supportsInterface := by
  simp only [Solidity.setAccessControl]
  simp [ContractBuilder.addParent, h]

lemma setAccessControl_roles_of_not_hasParent (c : ContractBuilder)
    (h : c.hasParent Solidity.parents.AccessControl = false) :
    Solidity.setAccessControl c (.jsStr "roles")
      = (((({ c with parents := c.parents ++ [({ contract := Solidity.parents.AccessControl, params := [] } : Parent)] }).addConstructorArgument
            { type := "address", name := "defaultAdmin" }).addConstructorCode
            "require(defaultAdmin != address(0), \"AccessControl: default admin is zero address\");").addConstructorCode
            "_grantRole(DEFAULT_ADMIN_ROLE, defaultAdmin);").addOverride
          Solidity.parents.AccessControl Solidity.supportsInterface := by
  simp only [Solidity.setAccessControl]
  simp [ContractBuilder.addParent, h]

lemma setAccessControl_managed_of_hasParent (c : ContractBuilder)
    (h : c.hasParent Solidity.parents.AccessManaged = true) :
    Solidity.setAccessControl c (.jsStr "managed") = c := by
  simp only [Solidity.setAccessControl]
  simp [ContractBuilder.addParent, h]

lemma setAccessControl_managed_of_not_hasParent (c : ContractBuilder)
    (h : c.hasParent Solidity.parents.AccessManaged = false) :
    Solidity.setAccessControl c (.jsStr "managed")
      = (({ c with parents := c.parents ++ [({ contract := Solidity.parents.AccessManaged, params := ["initialAuthority"] } : Parent)] }).addConstructorArgument
          { type := "address", name := "initialAuthority" }).addConstructorCode
          "require(initialAuthority != address(0), \"AccessManaged: initial authority is zero address\");" := by
  simp only [Solidity.setAccessControl]
  simp [ContractBuilder.addParent, h]

lemma requireAccessControl_false (c : ContractBuilder) (fn : BaseFunction)
    (pfx : String) (ro : Option String) :
    Solidity.requireAccessControl c fn .jsFalse pfx ro
      = Solidity.requireAccessControl c fn (.jsStr "ownable") pfx ro := rfl

lemma requireAccessControl_ownable (c : ContractBuilder) (fn : BaseFunction)
    (pfx : String) (ro : Option String) :
    Solidity.requireAccessControl c fn (.jsStr "ownable") pfx ro
      = (Solidity.setAccessControl c (.jsStr "ownable")).addModifier "onlyOwner" fn := by
  simp [Solidity.requireAccessControl]

lemma requireAccessControl_managed (c : ContractBuilder) (fn : BaseFunction)
    (pfx : String) (ro : Option String) :
    Solidity.requireAccessControl c fn (.jsStr "managed") pfx ro
      = (Solidity.setAccessControl c (.jsStr "managed")).addModifier "restricted" fn := by
  simp [Solidity.requireAccessControl]

lemma requireAccessControl_roles_none (c : ContractBuilder) (fn : BaseFunction)
    (pfx : String) :
    Solidity.requireAccessControl c fn (.jsStr "roles") pfx none
      = (((Solidity.setAccessControl c (.jsStr "roles")).addConstantOrImmutableOrErrorDefinition
            ("bytes32 public constant " ++ (pfx ++ "_ROLE") ++ " = keccak256(\"" ++ (pfx ++ "_ROLE") ++ "\");") []).2).addModifier
          ("onlyRole(" ++ (pfx ++ "_ROLE") ++ ")") fn := by
  simp [Solidity.requireAccessControl]

lemma parents_setAccessControl_ownable (c : ContractBuilder) :
    (Solidity.setAccessControl c (.jsStr "ownable")).parents
      = ((c.addParent Solidity.parents.Ownable ["initialOwner"]).2).parents := by
  by_cases hp : c.hasParent Solidity.parents.Ownable = true
  · rw [setAccessControl_ownable_of_hasParent c hp, addParent_of_hasParent c _ _ hp]
  · have hp' := Bool.eq_false_iff.mpr hp
    rw [setAccessControl_ownable_of_not_hasParent c hp', addParent_of_not_hasParent c _ _ hp']
    simp

lemma setAccessControl_unknown (c : ContractBuilder) (s : String)
    (h1 : s ≠ "ownable") (h2 : s ≠ "roles") (h3 : s ≠ "managed") :
    Solidity.setAccessControl c (.jsStr s) = c := by
  simp only [Solidity.setAccessControl]
  rw [if_neg h1, if_neg h2, if_neg h3]

lemma requireAccessControl_unknown (c : ContractBuilder) (fn : BaseFunction)
    (pfx : String) (ro : Option String) (s : String)
    (h1 : s ≠ "ownable") (h2 : s ≠ "roles") (h3 : s ≠ "managed") :
    Solidity.requireAccessControl c fn (.jsStr s) pfx ro = c := by
  simp only [Solidity.requireAccessControl]
  rw [if_neg (fun hh => JsAccess.noConfusion hh)]
  rw [setAccessControl_unknown c s h1 h2 h3]
  split
  · rename_i heq
    exact absurd heq (fun hh => JsAccess.noConfusion hh)
  · rename_i s2 heq
    injection heq with hs
    subst hs
    rw [if_neg h1, if_neg h2, if_neg h3]

lemma stylus_setAccessControl_unknown (c : Stylus.StylusBuilder) (s : String)
    (h1 : s ≠ "ownable") (h2 : s ≠ "roles") :
    Stylus.setAccessControl c (.jsStr s) = .error "Unknown value for `access`" := by
  simp only [Stylus.setAccessControl]
  rw [if_neg h1, if_neg h2]

lemma stylus_requireAccessControl_unknown (c : Stylus.StylusBuilder)
    (tr : Stylus.ContractTrait) (fn : BaseFunction) (pfx : String)
    (ro : Option String) (s : String) (h1 : s ≠ "ownable") (h2 : s ≠ "roles") :
    Stylus.requireAccessControl c tr fn (.jsStr s) pfx ro
      = .error "Unknown value for `access`" := by
  simp only [Stylus.requireAccessControl]
  rw [if_neg (fun hh => JsAccess.noConfusion hh)]
  rw [stylus_setAccessControl_unknown c s h1 h2]

lemma requireAccessControl_roles_some_added (c : ContractBuilder) (fn : BaseFunction)
    (pfx o : String)
    (h : (Solidity.setAccessControl c (.jsStr "roles")).hasConstant
        ("bytes32 public constant " ++ (pfx ++ "_ROLE") ++ " = keccak256(\"" ++ (pfx ++ "_ROLE") ++ "\");") = false) :
    Solidity.requireAccessControl c fn (.jsStr "roles") pfx (some o)
      = (((({ Solidity.setAccessControl c (.jsStr "roles") with
              constants := (Solidity.setAccessControl c (.jsStr "roles")).constants
                ++ [("bytes32 public constant " ++ (pfx ++ "_ROLE") ++ " = keccak256(\"" ++ (pfx ++ "_ROLE") ++ "\");", [])] }).addConstructorArgument
            { type := "address", name := o }).addConstructorCode
            ("require(" ++ o ++ " != address(0), \"AccessControl: role owner is zero address\");")).addConstructorCode
            ("_grantRole(" ++ (pfx ++ "_ROLE") ++ ", " ++ o ++ ");")).addModifier
          ("onlyRole(" ++ (pfx ++ "_ROLE") ++ ")") fn := by
  simp only [Solidity.requireAccessControl]
  simp [ContractBuilder.addConstantOrImmutableOrErrorDefinition, h]

/-! Frame lemmas for the storage-layout and build-state observations. -/

@[simp] lemma addParent_snd_storageEntries (c : ContractBuilder) (p : ParentContract)
    (ps : List String) : ((c.addParent p ps).2).storageEntries = c.storageEntries := by
  unfold ContractBuilder.addParent
  split <;> rfl

@[simp] lemma addParent_snd_upgradeable (c : ContractBuilder) (p : ParentContract)
    (ps : List String) : ((c.addParent p ps).2).upgradeable = c.upgradeable := by
  unfold ContractBuilder.addParent
  split <;> rfl

@[simp] lemma addParent_snd_constants (c : ContractBuilder) (p : ParentContract)
    (ps : List String) : ((c.addParent p ps).2).constants = c.constants := by
  unfold ContractBuilder.addParent
  split <;> rfl

@[simp] lemma addParent_snd_functions (c : ContractBuilder) (p : ParentContract)
    (ps : List String) : ((c.addParent p ps).2).functions = c.functions := by
  unfold ContractBuilder.addParent
  split <;> rfl

@[simp] lemma addConstructorArgument_storageEntries (c : ContractBuilder)
    (a : FunctionArgument) : (c.addConstructorArgument a).storageEntries = c.storageEntries := rfl

@[simp] lemma addConstructorArgument_upgradeable (c : ContractBuilder)
    (a : FunctionArgument) : (c.addConstructorArgument a).upgradeable = c.upgradeable := rfl

@[simp] lemma addConstructorCode_storageEntries (c : ContractBuilder) (s : String) :
    (c.addConstructorCode s).storageEntries = c.storageEntries := rfl

@[simp] lemma addConstructorCode_upgradeable (c : ContractBuilder) (s : String) :
    (c.addConstructorCode s).upgradeable = c.upgradeable := rfl

@[simp] lemma addConstant_snd_storageEntries (c : ContractBuilder) (d : String)
    (docs : List String) :
    ((c.addConstantOrImmutableOrErrorDefinition d docs).2).storageEntries = c.storageEntries := by
  unfold ContractBuilder.addConstantOrImmutableOrErrorDefinition
  split <;> rfl

@[simp] lemma addConstant_snd_upgradeable (c : ContractBuilder) (d : String)
    (docs : List String) :
    ((c.addConstantOrImmutableOrErrorDefinition d docs).2).upgradeable = c.upgradeable := by
  unfold ContractBuilder.addConstantOrImmutableOrErrorDefinition
  split <;> rfl

@[simp] lemma ensureFunction_storageEntries (c : ContractBuilder) (f : BaseFunction) :
    (c.ensureFunction f).storageEntries = c.storageEntries := rfl

@[simp] lemma ensureFunction_upgradeable (c : ContractBuilder) (f : BaseFunction) :
    (c.ensureFunction f).upgradeable = c.upgradeable := rfl

@[simp] lemma addModifier_storageEntries (c : ContractBuilder) (m : String)
    (f : BaseFunction) : (c.addModifier m f).storageEntries = c.storageEntries := rfl

@[simp] lemma addModifier_upgradeable (c : ContractBuilder) (m : String)
    (f : BaseFunction) : (c.addModifier m f).upgradeable = c.upgradeable := rfl

@[simp] lemma addOverride_storageEntries (c : ContractBuilder) (p : ParentContract)
    (f : BaseFunction) : (c.addOverride p f).storageEntries = c.storageEntries := rfl

@[simp] lemma addOverride_upgradeable (c : ContractBuilder) (p : ParentContract)
    (f : BaseFunction) : (c.addOverride p f).upgradeable = c.upgradeable := rfl

@[simp] lemma addStateVariable_storageEntries (c : ContractBuilder) (t : String)
    (b : Bool) : (c.addStateVariable t b).storageEntries = c.storageEntries := rfl

@[simp] lemma addStateVariable_upgradeable (c : ContractBuilder) (t : String)
    (b : Bool) : (c.addStateVariable t b).upgradeable = c.upgradeable := rfl

@[simp] lemma addStateVariable_constants (c : ContractBuilder) (t : String)
    (b : Bool) : (c.addStateVariable t b).constants = c.constants := rfl

@[simp] lemma addStateVariable_functions (c : ContractBuilder) (t : String)
    (b : Bool) : (c.addStateVariable t b).functions = c.functions := rfl

@[simp] lemma setNamespacedStorage_upgradeable (c : ContractBuilder)
    (fields : List String) (label : String) :
    (setNamespacedStorage c fields label).upgradeable = c.upgradeable := by
  unfold setNamespacedStorage
  split <;> rfl

@[simp] lemma setNamespacedStorage_constants (c : ContractBuilder)
    (fields : List String) (label : String) :
    (setNamespacedStorage c fields label).constants = c.constants := by
  unfold setNamespacedStorage
  split <;> rfl

@[simp] lemma setNamespacedStorage_functions (c : ContractBuilder)
    (fields : List String) (label : String) :
    (setNamespacedStorage c fields label).functions = c.functions := by
  unfold setNamespacedStorage
  split <;> rfl

lemma addImportOnly_ok_imports_only (c : ContractBuilder) (n p : String) (b : Bool)
    (d : ContractBuilder) (h : c.addImportOnly n p = .ok (b, d)) :
    d = { c with imports := d.imports } := by
  unfold ContractBuilder.addImportOnly at h
  revert h
  split
  · split
    · intro h
      cases h
      rfl
    · intro h
      cases h
  · intro h
    cases h
    rfl

lemma addFunctionCode_ok_functions_only (c : ContractBuilder) (code : String)
    (g : BaseFunction) (d : ContractBuilder) (h : c.addFunctionCode code g = .ok d) :
    d = { c with functions := d.functions } := by
  obtain ⟨l, heq, rfl⟩ := addFunctionCode_ok_shape c code g d h
  rfl

lemma mem_storageEntries_setNamespacedStorage (c : ContractBuilder)
    (fields : List String) (label : String) :
    label ∈ (setNamespacedStorage c fields label).storageEntries.map (fun e => e.1) := by
  unfold setNamespacedStorage
  split
  · next e hfind =>
    have hmem := List.mem_of_find?_eq_some hfind
    have hpred := List.find?_some hfind
    have hlab : e.1 = label := by simpa using hpred
    simp only []
    rw [List.map_map]
    refine List.mem_map.mpr ⟨e, hmem, ?_⟩
    simp [Function.comp, hlab]
  · simp

lemma storageEntries_setAccessControl (c : ContractBuilder) (a : JsAccess) :
    (Solidity.setAccessControl c a).storageEntries = c.storageEntries := by
  cases a with
  | jsFalse => rfl
  | jsStr s =>
    simp only [Solidity.setAccessControl]
    split_ifs <;> simp

lemma constants_setAccessControl (c : ContractBuilder) (a : JsAccess) :
    (Solidity.setAccessControl c a).constants = c.constants := by
  cases a with
  | jsFalse => rfl
  | jsStr s =>
    simp only [Solidity.setAccessControl]
    split_ifs <;> simp

lemma upgradeable_setAccessControl (c : ContractBuilder) (a : JsAccess) :
    (Solidity.setAccessControl c a).upgradeable = c.upgradeable := by
  cases a with
  | jsFalse => rfl
  | jsStr s =>
    simp only [Solidity.setAccessControl]
    split_ifs <;> simp

lemma storageEntries_requireAccessControl (c : ContractBuilder) (fn : BaseFunction)
    (a : JsAccess) (pfx : String) (ro : Option String) :
    (Solidity.requireAccessControl c fn a pfx ro).storageEntries = c.storageEntries := by
  have main : ∀ s, (Solidity.requireAccessControl c fn (.jsStr s) pfx ro).storageEntries
      = c.storageEntries := by
    intro s
    simp only [Solidity.requireAccessControl]
    rw [if_neg (fun hh => JsAccess.noConfusion hh)]
    split
    · rename_i heq
      exact absurd heq (fun hh => JsAccess.noConfusion hh)
    · rename_i s2 heq
      injection heq with hs
      subst hs
      split_ifs <;> cases ro <;>
        simp [storageEntries_setAccessControl]
  cases a with
  | jsFalse =>
    rw [requireAccessControl_false]
    exact main "ownable"
  | jsStr s => exact main s

lemma mem_storageEntries_addAddressVerification (c d : ContractBuilder) (a : JsAccess)
    (hup : c.upgradeable = true)
    (h : Solidity.Structured.addAddressVerification c a = .ok d) :
    "openzeppelin.storage" ∈ d.storageEntries.map (fun e => e.1) := by
  unfold Solidity.Structured.addAddressVerification at h
  split at h
  · exact Except.noConfusion h
  · rename_i b1 c1 heq1
    split at h
    · exact Except.noConfusion h
    · rename_i b2 c2 heq2
      simp only [] at h
      generalize hc6 : ((((c2.addConstantOrImmutableOrErrorDefinition
          "event AddressVerified(address indexed account);"
          ["/// @dev Emitted when an address is verified"]).2.addConstantOrImmutableOrErrorDefinition
          "event VerificationRevoked(address indexed account);"
          ["/// @dev Emitted when address verification is revoked"]).2.addConstantOrImmutableOrErrorDefinition
          "error InvalidSignature();"
          ["/// @dev Error thrown when signature verification fails"]).2.addConstantOrImmutableOrErrorDefinition
          "error AlreadyVerified();"
          ["/// @dev Error thrown when address is already verified"]).2 = c6 at h
      have hup2 : c2.upgradeable = true := by
        have e1 := addImportOnly_ok_imports_only _ _ _ _ _ heq1
        have e2 := addImportOnly_ok_imports_only _ _ _ _ _ heq2
        rw [e2, e1]
        exact hup
      have hup6 : c6.upgradeable = true := by
        rw [← hc6]
        simp [hup2]
      rw [if_pos hup6] at h
      split at h
      · exact Except.noConfusion h
      · rename_i c8 heq3
        split at h
        · exact Except.noConfusion h
        · rename_i c9 heq4
          have hm7 : "openzeppelin.storage" ∈ (setNamespacedStorage c6
              ["mapping(address account => bool verified) _verifiedAddresses"]
              "openzeppelin.storage").storageEntries.map (fun e => e.1) :=
            mem_storageEntries_setNamespacedStorage _ _ _
          have e8 := addFunctionCode_ok_functions_only _ _ _ _ heq3
          have hst8 : c8.storageEntries = (setNamespacedStorage c6
              ["mapping(address account => bool verified) _verifiedAddresses"]
              "openzeppelin.storage").storageEntries := by
            rw [e8]
          have hm8 : "openzeppelin.storage" ∈ c8.storageEntries.map (fun e => e.1) := by
            rw [hst8]
            exact hm7
          have e9 := addFunctionCode_ok_functions_only _ _ _ _ heq4
          have hst9 : c9.storageEntries = c8.storageEntries := by
            rw [e9]
          have hm9 : "openzeppelin.storage" ∈ c9.storageEntries.map (fun e => e.1) := by
            rw [hst9]
            exact hm8
          split at h
          · unfold Solidity.Structured.addRevokeAddressVerificationFunction at h
            have ed := addFunctionCode_ok_functions_only _ _ _ _ h
            have hstd : d.storageEntries
                = (Solidity.requireAccessControl c9
                    Solidity.Structured.functions.revokeAddressVerification
                    a "DEFAULT_ADMIN_ROLE" none).storageEntries := by
              rw [ed]
            rw [hstd, storageEntries_requireAccessControl]
            exact hm9
          · cases h
            exact hm9

lemma hashString_lt (s : String) : hashString s < 2 ^ 256 := by
  unfold hashString
  have haux : ∀ (l : List Char) (init : Nat), init < 2 ^ 256 →
      l.foldl (fun h ch => (h * 131 + ch.toNat) % 2 ^ 256) init < 2 ^ 256 := by
    intro l
    induction l with
    | nil => exact fun init h => h
    | cons ch rest ih =>
      intro init h
      exact ih _ (Nat.mod_lt _ (by positivity))
  exact haux s.data 5381 (by norm_num)

lemma hasFunction_eq_of_functions_eq (c c' : ContractBuilder) (f : BaseFunction)
    (h : c'.functions = c.functions) : c'.hasFunction f = c.hasFunction f := by
  unfold ContractBuilder.hasFunction
  rw [h]

lemma hasFunction_setAccessControl (c : ContractBuilder) (a : JsAccess)
    (f : BaseFunction) (hf : (fnSig Solidity.supportsInterface == fnSig f) = false) :
    (Solidity.setAccessControl c a).hasFunction f = c.hasFunction f := by
  cases a with
  | jsFalse => rfl
  | jsStr s =>
    simp only [Solidity.setAccessControl]
    split_ifs <;>
      first
      | rfl
      | (exact hasFunction_eq_of_functions_eq _ _ _ (by simp))
      | (rw [hasFunction_addOverride, hasFunction_ensureFunction_ne _ _ _ hf]
         exact hasFunction_eq_of_functions_eq _ _ _ (by simp))

lemma addParent_fst_false_iff (c : ContractBuilder) (p : ParentContract)
    (ps : List String) : (c.addParent p ps).1 = false ↔ c.hasParent p = true := by
  unfold ContractBuilder.addParent
  split <;> simp_all

lemma filter_name_length_one (l : List Parent) (x : String)
    (hnodup : (l.map (fun q => q.contract.name)).Nodup)
    (hmem : l.any (fun q => q.contract.name == x) = true) :
    (l.filter (fun q => q.contract.name == x)).length = 1 := by
  induction l with
  | nil => cases hmem
  | cons q rest ih =>
    simp only [List.map_cons, List.nodup_cons] at hnodup
    obtain ⟨hq_not, hrest⟩ := hnodup
    by_cases hq : q.contract.name = x
    · have hnone : rest.filter (fun q2 => q2.contract.name == x) = [] := by
        rw [List.filter_eq_nil_iff]
        intro q2 hq2 hbe
        apply hq_not
        have hq2x : q2.contract.name = x := by simpa using hbe
        exact List.mem_map.mpr ⟨q2, hq2, hq2x.trans hq.symm⟩
      rw [List.filter_cons_of_pos (by simpa using hq), hnone]
      rfl
    · have hmem2 : rest.any (fun q2 => q2.contract.name == x) = true := by
        rcases List.any_eq_true.mp hmem with ⟨q2, hq2, hbe⟩
        rcases List.mem_cons.mp hq2 with rfl | hq2r
        · exact absurd (by simpa using hbe) hq
        · exact List.any_eq_true.mpr ⟨q2, hq2r, hbe⟩
      rw [List.filter_cons_of_neg (by simpa using hq)]
      exact ih hrest hmem2

lemma filter_name_append_one (l : List Parent) (entry : Parent) (x : String)
    (hx : entry.contract.name = x)
    (hnone : l.any (fun q => q.contract.name == x) = false) :
    ((l ++ [entry]).filter (fun q => q.contract.name == x)).length = 1 := by
  rw [List.filter_append]
  have h1 : l.filter (fun q => q.contract.name == x) = [] := by
    rw [List.filter_eq_nil_iff]
    intro a ha hbe
    have : l.any (fun q => q.contract.name == x) = true :=
      List.any_eq_true.mpr ⟨a, ha, hbe⟩
    rw [hnone] at this
    cases this
  rw [h1, List.filter_cons_of_pos (by simpa using hx)]
  rfl

/-! Claim theorems. -/

/-- C1: for every builder and every Solidity access mode with a parent
(`ownable`, `roles`, `managed`): when `addParent` reports the mode's parent
as already present, `setAccessControl` adds no constructor argument and no
constructor statement; applying `setAccessControl` twice with the same mode
equals applying it once, and the result carries exactly one inheritance
entry for the mode's parent. -/
theorem claim_C1_setAccessControl_idempotent (c : ContractBuilder) (m : JsAccess)
    (p : ParentContract)
    (hm : (m = .jsStr "ownable" ∧ p = Solidity.parents.Ownable) ∨
          (m = .jsStr "roles" ∧ p = Solidity.parents.AccessControl) ∨
          (m = .jsStr "managed" ∧ p = Solidity.parents.AccessManaged))
    (hnodup : (c.parents.map (fun q => q.contract.name)).Nodup) :
    (∀ ps, (c.addParent p ps).1 = false →
      (Solidity.setAccessControl c m).constructorArgs = c.constructorArgs ∧
      (Solidity.setAccessControl c m).constructorCode = c.constructorCode) ∧
    Solidity.setAccessControl (Solidity.setAccessControl c m) m
      = Solidity.setAccessControl c m ∧
    ((Solidity.setAccessControl c m).parents.filter
        (fun q => q.contract.name == p.name)).length = 1 := by
  rcases hm with ⟨rfl, rfl⟩ | ⟨rfl, rfl⟩ | ⟨rfl, rfl⟩
  · by_cases hp : c.hasParent Solidity.parents.Ownable = true
    · refine ⟨fun ps hfalse => ?_, ?_, ?_⟩
      · rw [setAccessControl_ownable_of_hasParent c hp]
        exact ⟨rfl, rfl⟩
      · rw [setAccessControl_ownable_of_hasParent c hp,
          setAccessControl_ownable_of_hasParent c hp]
      · rw [setAccessControl_ownable_of_hasParent c hp]
        exact filter_name_length_one c.parents _ hnodup hp
    · have hp' : c.hasParent Solidity.parents.Ownable = false := Bool.eq_false_iff.mpr hp
      refine ⟨fun ps hfalse => absurd ((addParent_fst_false_iff c _ ps).mp hfalse) hp, ?_, ?_⟩
      · rw [setAccessControl_ownable_of_not_hasParent c hp']
        have hA : ((({ c with parents := c.parents
              ++ [({ contract := Solidity.parents.Ownable, params := ["initialOwner"] } : Parent)] }).addConstructorArgument
              { type := "address", name := "initialOwner" }).addConstructorCode
              "require(initialOwner != address(0), \"Ownable: initial owner is zero address\");").hasParent
            Solidity.parents.Ownable = true := by
          simp [ContractBuilder.hasParent]
        rw [setAccessControl_ownable_of_hasParent _ hA]
      · rw [setAccessControl_ownable_of_not_hasParent c hp']
        exact filter_name_append_one c.parents _ _ rfl hp'
  · by_cases hp : c.hasParent Solidity.parents.AccessControl = true
    · refine ⟨fun ps hfalse => ?_, ?_, ?_⟩
      · rw [setAccessControl_roles_of_hasParent c hp]
        exact ⟨rfl, rfl⟩
      · have hpA : (c.addOverride Solidity.parents.AccessControl
            Solidity.supportsInterface).hasParent Solidity.parents.AccessControl = true := hp
        rw [setAccessControl_roles_of_hasParent c hp,
          setAccessControl_roles_of_hasParent _ hpA]
        exact addOverride_idem c _ _
      · rw [setAccessControl_roles_of_hasParent c hp]
        exact filter_name_length_one c.parents _ hnodup hp
    · have hp' : c.hasParent Solidity.parents.AccessControl = false := Bool.eq_false_iff.mpr hp
      refine ⟨fun ps hfalse => absurd ((addParent_fst_false_iff c _ ps).mp hfalse) hp, ?_, ?_⟩
      · rw [setAccessControl_roles_of_not_hasParent c hp']
        have hA : ((((({ c with parents := c.parents
              ++ [({ contract := Solidity.parents.AccessControl, params := [] } : Parent)] }).addConstructorArgument
              { type := "address", name := "defaultAdmin" }).addConstructorCode
              "require(defaultAdmin != address(0), \"AccessControl: default admin is zero address\");").addConstructorCode
              "_grantRole(DEFAULT_ADMIN_ROLE, defaultAdmin);").addOverride
            Solidity.parents.AccessControl Solidity.supportsInterface).hasParent
            Solidity.parents.AccessControl = true := by
          simp [ContractBuilder.hasParent]
        rw [setAccessControl_roles_of_hasParent _ hA]
        exact addOverride_idem _ _ _
      · rw [setAccessControl_roles_of_not_hasParent c hp']
        exact filter_name_append_one c.parents _ _ rfl hp'
  · by_cases hp : c.hasParent Solidity.parents.AccessManaged = true
    · refine ⟨fun ps hfalse => ?_, ?_, ?_⟩
      · rw [setAccessControl_managed_of_hasParent c hp]
        exact ⟨rfl, rfl⟩
      · rw [setAccessControl_managed_of_hasParent c hp,
          setAccessControl_managed_of_hasParent c hp]
      · rw [setAccessControl_managed_of_hasParent c hp]
        exact filter_name_length_one c.parents _ hnodup hp
    · have hp' : c.hasParent Solidity.parents.AccessManaged = false := Bool.eq_false_iff.mpr hp
      refine ⟨fun ps hfalse => absurd ((addParent_fst_false_iff c _ ps).mp hfalse) hp, ?_, ?_⟩
      · rw [setAccessControl_managed_of_not_hasParent c hp']
        have hA : ((({ c with parents := c.parents
              ++ [({ contract := Solidity.parents.AccessManaged, params := ["initialAuthority"] } : Parent)] }).addConstructorArgument
              { type := "address", name := "initialAuthority" }).addConstructorCode
              "require(initialAuthority != address(0), \"AccessManaged: initial authority is zero address\");").hasParent
            Solidity.parents.AccessManaged = true := by
          simp [ContractBuilder.hasParent]
        rw [setAccessControl_managed_of_hasParent _ hA]
      · rw [setAccessControl_managed_of_not_hasParent c hp']
        exact filter_name_append_one c.parents _ _ rfl hp'

/-- C1 witness: both calls evaluated on the empty model in `'roles'` mode. -/
theorem claim_C1_setAccessControl_idempotent_witness :
    (emptyBuilder.parents.map (fun q => q.contract.name)).Nodup ∧
    Solidity.setAccessControl (Solidity.setAccessControl emptyBuilder (.jsStr "roles"))
        (.jsStr "roles")
      = Solidity.setAccessControl emptyBuilder (.jsStr "roles") ∧
    ((Solidity.setAccessControl emptyBuilder (.jsStr "roles")).parents.filter
        (fun q => q.contract.name == Solidity.parents.AccessControl.name)).length = 1 :=
  have happ := claim_C1_setAccessControl_idempotent emptyBuilder (.jsStr "roles")
    Solidity.parents.AccessControl (Or.inr (Or.inl ⟨rfl, rfl⟩)) (by decide)
  ⟨by decide, happ.2.1, happ.2.2⟩

/-- C2: registering a symbol whose key is already registered with an
identical payload returns `added = false` and raises no error, while the same
key with a different payload fails with `SymbolConflict`; in particular the
`ECDSA` import added twice with the same path succeeds once and is a no-op
the second time, and a different path for `ECDSA` fails with
`SymbolConflict`. Constants (events, errors) are likewise idempotent under
identical re-registration. -/
theorem claim_C2_registry_conflict_detection (c : ContractBuilder) (n p p2 : String) :
    (c.imports.find? (fun e => e.1 == n) = none →
      c.addImportOnly n p = .ok (true, { c with imports := c.imports ++ [(n, p)] })) ∧
    (c.imports.find? (fun e => e.1 == n) = some (n, p) →
      c.addImportOnly n p = .ok (false, c) ∧
      (p2 ≠ p → c.addImportOnly n p2
        = .error (.symbolConflict n p p2))) ∧
    (∀ d docs docs2,
      ((c.addConstantOrImmutableOrErrorDefinition d docs).2).addConstantOrImmutableOrErrorDefinition d docs2
        = (false, (c.addConstantOrImmutableOrErrorDefinition d docs).2)) ∧
    emptyBuilder.addImportOnly "ECDSA" "@openzeppelin/contracts/utils/cryptography/ECDSA.sol"
      = .ok (true, { emptyBuilder with
          imports := [("ECDSA", "@openzeppelin/contracts/utils/cryptography/ECDSA.sol")] }) ∧
    ({ emptyBuilder with
        imports := [("ECDSA", "@openzeppelin/contracts/utils/cryptography/ECDSA.sol")] } : ContractBuilder).addImportOnly
        "ECDSA" "@openzeppelin/contracts/utils/cryptography/ECDSA.sol"
      = .ok (false, { emptyBuilder with
          imports := [("ECDSA", "@openzeppelin/contracts/utils/cryptography/ECDSA.sol")] }) ∧
    ({ emptyBuilder with
        imports := [("ECDSA", "@openzeppelin/contracts/utils/cryptography/ECDSA.sol")] } : ContractBuilder).addImportOnly
        "ECDSA" "./other/ECDSA.sol"
      = .error (.symbolConflict "ECDSA"
          "@openzeppelin/contracts/utils/cryptography/ECDSA.sol" "./other/ECDSA.sol") := by
  refine ⟨?_, ?_, ?_, by decide, by decide, by decide⟩
  · intro h
    unfold ContractBuilder.addImportOnly
    rw [h]
  · intro h
    constructor
    · unfold ContractBuilder.addImportOnly
      rw [h]
      simp
    · intro hne
      unfold ContractBuilder.addImportOnly
      rw [h]
      simp [Ne.symm hne]
  · intro d docs docs2
    exact addConstant_of_hasConstant _ d docs2 (hasConstant_addConstant_self c d docs)

/-- C2 witness: the registry behaviour evaluated on the empty model and a
one-import model. -/
theorem claim_C2_registry_conflict_detection_witness :
    emptyBuilder.imports.find? (fun e => e.1 == "ECDSA") = none ∧
    emptyBuilder.addImportOnly "ECDSA" "./a.sol"
      = .ok (true, { emptyBuilder with imports := [("ECDSA", "./a.sol")] }) :=
  ⟨by decide,
   (claim_C2_registry_conflict_detection emptyBuilder "ECDSA" "./a.sol" "./b.sol").1 (by decide)⟩

/-- C3: `requireAccessControl` with `access = false` behaves exactly as with
`access = 'ownable'`: in the Solidity builder it substitutes the single-owner
mode, adding the `Ownable` parent and the `onlyOwner` modifier instead of
raising an error, and the Stylus variant substitutes its
`DEFAULT_ACCESS_CONTROL = 'ownable'` the same way. -/
theorem claim_C3_false_defaults_to_ownable (c : ContractBuilder) (fn : BaseFunction)
    (pfx : String) (ro : Option String) (sc : Stylus.StylusBuilder)
    (tr : Stylus.ContractTrait) (sfn : BaseFunction) (spfx : String)
    (sro : Option String) :
    Solidity.requireAccessControl c fn .jsFalse pfx ro
        = Solidity.requireAccessControl c fn (.jsStr "ownable") pfx ro ∧
    "Ownable" ∈ (Solidity.requireAccessControl c fn .jsFalse pfx ro).parents.map
        (fun q => q.contract.name) ∧
    "onlyOwner" ∈ (Solidity.requireAccessControl c fn .jsFalse pfx ro).modifiersOf fn ∧
    Stylus.requireAccessControl sc tr sfn .jsFalse spfx sro
        = Stylus.requireAccessControl sc tr sfn (.jsStr "ownable") spfx sro := by
  refine ⟨rfl, ?_, ?_, rfl⟩
  · rw [requireAccessControl_false, requireAccessControl_ownable]
    simp only [addModifier_parents]
    rw [parents_setAccessControl_ownable]
    exact mem_parents_addParent c Solidity.parents.Ownable ["initialOwner"]
  · rw [requireAccessControl_false, requireAccessControl_ownable]
    exact mem_modifiersOf_addModifier _ "onlyOwner" fn

/-- C4 counterexample: at the concrete out-of-set value `'bogus'` the
Solidity `setAccessControl` and `requireAccessControl` silently return the
builder unchanged instead of failing fast with an error — their `switch`
statements have no `default` case — refuting the claim as stated for the
Solidity dialect (the Stylus dialect does throw). -/
theorem claim_C4_counterexample :
    (JsAccess.jsStr "bogus") ∉ Solidity.accessOptions ∧
    (JsAccess.jsStr "bogus") ∉ Stylus.accessOptions ∧
    Solidity.setAccessControl emptyBuilder (.jsStr "bogus") = emptyBuilder ∧
    Solidity.requireAccessControl emptyBuilder Solidity.supportsInterface
        (.jsStr "bogus") "MY" none = emptyBuilder ∧
    Stylus.setAccessControl Stylus.emptyStylusBuilder (.jsStr "bogus")
      = .error "Unknown value for `access`" := by
  refine ⟨by decide, by decide, ?_, ?_, by decide⟩
  · exact setAccessControl_unknown emptyBuilder "bogus" (by decide) (by decide) (by decide)
  · exact requireAccessControl_unknown emptyBuilder Solidity.supportsInterface "MY" none
      "bogus" (by decide) (by decide) (by decide)

/-- C4 (amended): for access values outside the declared variant set, the
Stylus `setAccessControl` and `requireAccessControl` fail fast with
`Error('Unknown value for access')`, while the Solidity `setAccessControl`
and `requireAccessControl` have no `default` case and silently return the
builder unchanged. -/
theorem claim_C4_amended_unknown_mode (c : ContractBuilder) (fn : BaseFunction)
    (pfx : String) (ro : Option String) (sc : Stylus.StylusBuilder)
    (tr : Stylus.ContractTrait) (sfn : BaseFunction) (a : JsAccess) :
    (a ∉ Stylus.accessOptions →
      Stylus.setAccessControl sc a = .error "Unknown value for `access`" ∧
      Stylus.requireAccessControl sc tr sfn a pfx ro
        = .error "Unknown value for `access`") ∧
    (a ∉ Solidity.accessOptions →
      Solidity.setAccessControl c a = c ∧
      Solidity.requireAccessControl c fn a pfx ro = c) := by
  constructor
  · intro h
    cases a with
    | jsFalse => exact absurd (by simp [Stylus.accessOptions]) h
    | jsStr s =>
      have h1' : s ≠ "ownable" := fun hh => h (by rw [hh]; simp [Stylus.accessOptions])
      have h2' : s ≠ "roles" := fun hh => h (by rw [hh]; simp [Stylus.accessOptions])
      exact ⟨stylus_setAccessControl_unknown sc s h1' h2',
        stylus_requireAccessControl_unknown sc tr sfn pfx ro s h1' h2'⟩
  · intro h
    cases a with
    | jsFalse => exact absurd (by simp [Solidity.accessOptions]) h
    | jsStr s =>
      have h1' : s ≠ "ownable" := fun hh => h (by rw [hh]; simp [Solidity.accessOptions])
      have h2' : s ≠ "roles" := fun hh => h (by rw [hh]; simp [Solidity.accessOptions])
      have h3' : s ≠ "managed" := fun hh => h (by rw [hh]; simp [Solidity.accessOptions])
      exact ⟨setAccessControl_unknown c s h1' h2' h3',
        requireAccessControl_unknown c fn pfx ro s h1' h2' h3'⟩

/-- C4 (amended) witness: evaluated at the out-of-set value `'bogus'` on the
empty Solidity and Stylus models. -/
theorem claim_C4_amended_unknown_mode_witness :
    (JsAccess.jsStr "bogus") ∉ Stylus.accessOptions ∧
    Stylus.setAccessControl Stylus.emptyStylusBuilder (.jsStr "bogus")
      = .error "Unknown value for `access`" ∧
    (JsAccess.jsStr "bogus") ∉ Solidity.accessOptions ∧
    Solidity.setAccessControl emptyBuilder (.jsStr "bogus") = emptyBuilder :=
  ⟨by decide,
   ((claim_C4_amended_unknown_mode emptyBuilder Solidity.supportsInterface "MY" none
      Stylus.emptyStylusBuilder ⟨"T", "t", "T"⟩ Solidity.supportsInterface
      (.jsStr "bogus")).1 (by decide)).1,
   by decide,
   ((claim_C4_amended_unknown_mode emptyBuilder Solidity.supportsInterface "MY" none
      Stylus.emptyStylusBuilder ⟨"T", "t", "T"⟩ Solidity.supportsInterface
      (.jsStr "bogus")).2 (by decide)).1⟩

/-- C5: constructor body statements are appended in call order, and when the
`AccessControl` parent is newly added in `'roles'` mode the zero-address
validation for `defaultAdmin` is placed strictly before the
`_grantRole(DEFAULT_ADMIN_ROLE, defaultAdmin)` statement. -/
theorem claim_C5_constructor_statement_order (c : ContractBuilder) :
    (∀ s, (c.addConstructorCode s).constructorCode = c.constructorCode ++ [s]) ∧
    (c.hasParent Solidity.parents.AccessControl = false →
      (Solidity.setAccessControl c (.jsStr "roles")).constructorCode
        = c.constructorCode ++
          ["require(defaultAdmin != address(0), \"AccessControl: default admin is zero address\");",
           "_grantRole(DEFAULT_ADMIN_ROLE, defaultAdmin);"]) := by
  refine ⟨fun s => rfl, fun h => ?_⟩
  rw [setAccessControl_roles_of_not_hasParent c h]
  simp

/-- C5 witness: evaluated on the empty model, where `AccessControl` is not
yet a parent. -/
theorem claim_C5_constructor_statement_order_witness :
    (emptyBuilder.addConstructorCode "x();").constructorCode = ["x();"] ∧
    emptyBuilder.hasParent Solidity.parents.AccessControl = false ∧
    (Solidity.setAccessControl emptyBuilder (.jsStr "roles")).constructorCode
      = ["require(defaultAdmin != address(0), \"AccessControl: default admin is zero address\");",
         "_grantRole(DEFAULT_ADMIN_ROLE, defaultAdmin);"] :=
  ⟨by rw [(claim_C5_constructor_statement_order emptyBuilder).1 "x();"]; decide,
   by decide,
   by rw [(claim_C5_constructor_statement_order emptyBuilder).2 (by decide)]; decide⟩

/-- C7: the structured implementation (events, errors and constants through
`addConstantOrImmutableOrErrorDefinition`, state through the storage-layout
resolver) and the freeform implementation (text blocks through `addVariable`)
of the address-verification feature are not observationally equivalent: on
the empty builder they produce different contract models, and the freeform
path appends its block unconditionally — bypassing the duplicate/conflict
detection that the structured constant path performs. -/
theorem claim_C7_structured_freeform_not_equivalent :
    Solidity.Structured.addAddressVerification emptyBuilder .jsFalse
      ≠ Solidity.Freeform.addAddressVerification emptyBuilder .jsFalse ∧
    (∀ (c : ContractBuilder) (t : String),
      (c.addVariable t).variableBlocks = c.variableBlocks ++ [t]) ∧
    (∀ (c : ContractBuilder) (d : String) (docs docs2 : List String),
      ((c.addConstantOrImmutableOrErrorDefinition d docs).2).addConstantOrImmutableOrErrorDefinition d docs2
        = (false, (c.addConstantOrImmutableOrErrorDefinition d docs).2)) := by
  refine ⟨by decide, fun c t => rfl, fun c d docs docs2 => ?_⟩
  exact addConstant_of_hasConstant _ d docs2 (hasConstant_addConstant_self c d docs)

/-- C8: whenever `setAccessControl` newly adds a mode's parent it appends a
constructor statement requiring the mode's address argument (`initialOwner`,
`defaultAdmin` or `initialAuthority`) to be non-zero; and when
`requireAccessControl` in `'roles'` mode is given a role owner and its role
constant is newly added, a zero-address require for the role owner is
appended strictly before the `_grantRole` statement. -/
theorem claim_C8_zero_address_validation (c : ContractBuilder) (fn : BaseFunction)
    (pfx o : String) :
    (c.hasParent Solidity.parents.Ownable = false →
      (Solidity.setAccessControl c (.jsStr "ownable")).constructorCode
        = c.constructorCode ++
          ["require(initialOwner != address(0), \"Ownable: initial owner is zero address\");"]) ∧
    (c.hasParent Solidity.parents.AccessControl = false →
      (Solidity.setAccessControl c (.jsStr "roles")).constructorCode
        = c.constructorCode ++
          ["require(defaultAdmin != address(0), \"AccessControl: default admin is zero address\");",
           "_grantRole(DEFAULT_ADMIN_ROLE, defaultAdmin);"]) ∧
    (c.hasParent Solidity.parents.AccessManaged = false →
      (Solidity.setAccessControl c (.jsStr "managed")).constructorCode
        = c.constructorCode ++
          ["require(initialAuthority != address(0), \"AccessManaged: initial authority is zero address\");"]) ∧
    ((Solidity.setAccessControl c (.jsStr "roles")).hasConstant
        ("bytes32 public constant " ++ (pfx ++ "_ROLE") ++ " = keccak256(\"" ++ (pfx ++ "_ROLE") ++ "\");") = false →
      (Solidity.requireAccessControl c fn (.jsStr "roles") pfx (some o)).constructorCode
        = (Solidity.setAccessControl c (.jsStr "roles")).constructorCode ++
          ["require(" ++ o ++ " != address(0), \"AccessControl: role owner is zero address\");",
           "_grantRole(" ++ (pfx ++ "_ROLE") ++ ", " ++ o ++ ");"]) := by
  refine ⟨fun h => ?_, fun h => ?_, fun h => ?_, fun h => ?_⟩
  · rw [setAccessControl_ownable_of_not_hasParent c h]
    simp
  · rw [setAccessControl_roles_of_not_hasParent c h]
    simp
  · rw [setAccessControl_managed_of_not_hasParent c h]
    simp
  · rw [requireAccessControl_roles_some_added c fn pfx o h]
    simp

/-- C8 witness: all four validation statements evaluated on the empty model
with role prefix `DEFAULT_ADMIN_ROLE` and role owner `roleAdmin`. -/
theorem claim_C8_zero_address_validation_witness :
    emptyBuilder.hasParent Solidity.parents.Ownable = false ∧
    (Solidity.setAccessControl emptyBuilder (.jsStr "ownable")).constructorCode
      = ["require(initialOwner != address(0), \"Ownable: initial owner is zero address\");"] ∧
    (Solidity.setAccessControl emptyBuilder (.jsStr "roles")).hasConstant
        ("bytes32 public constant " ++ ("DEFAULT_ADMIN_ROLE" ++ "_ROLE") ++ " = keccak256(\"" ++ ("DEFAULT_ADMIN_ROLE" ++ "_ROLE") ++ "\");") = false ∧
    (Solidity.requireAccessControl emptyBuilder Solidity.supportsInterface
        (.jsStr "roles") "DEFAULT_ADMIN_ROLE" (some "roleAdmin")).constructorCode
      = (Solidity.setAccessControl emptyBuilder (.jsStr "roles")).constructorCode ++
        ["require(roleAdmin != address(0), \"AccessControl: role owner is zero address\");",
         "_grantRole(DEFAULT_ADMIN_ROLE_ROLE, roleAdmin);"] :=
  ⟨by decide,
   by rw [(claim_C8_zero_address_validation emptyBuilder Solidity.supportsInterface
        "DEFAULT_ADMIN_ROLE" "roleAdmin").1 (by decide)]; decide,
   by decide,
   by rw [(claim_C8_zero_address_validation emptyBuilder Solidity.supportsInterface
        "DEFAULT_ADMIN_ROLE" "roleAdmin").2.2.2 (by decide)]; decide⟩

/-- C6 counterexample: the slot identifier does not change whenever an input
changes — the distinct pairs `('a.storage', 'b')` and `('a', 'storage.b')`
produce the same composite string `'a.storage.storage.b'` and therefore the
same identifier, refuting "changing either input changes the identifier". -/
theorem claim_C6_counterexample :
    slotIdentifier "a.storage" "b" = slotIdentifier "a" "storage.b" ∧
    ¬("a.storage" = "a" ∧ "b" = "storage.b") := by
  constructor
  · decide
  · decide

/-- C6 (amended): the storage-layout slot identifier is a pure function of
the pair (namespace label L, contract name C): it equals a fixed-length
(256-bit) hash of the composite string "L.storage.C", and the same inputs
always yield the same identifier; changing an input, however, changes the
identifier only when the composite strings differ — distinct pairs whose
composites coincide collide. For the address-verification feature on
upgradeable builds the namespace label used is 'openzeppelin.storage'. -/
theorem claim_C6_amended_slot_determinism (L C L2 C2 : String)
    (c d : ContractBuilder) (a : JsAccess) (hup : c.upgradeable = true)
    (hok : Solidity.Structured.addAddressVerification c a = .ok d) :
    slotIdentifier L C = hashString (L ++ ".storage." ++ C) ∧
    slotIdentifier L C < 2 ^ 256 ∧
    (L ++ ".storage." ++ C = L2 ++ ".storage." ++ C2 →
      slotIdentifier L C = slotIdentifier L2 C2) ∧
    "openzeppelin.storage" ∈ d.storageEntries.map (fun e => e.1) := by
  refine ⟨rfl, hashString_lt _, fun hcomp => ?_,
    mem_storageEntries_addAddressVerification c d a hup hok⟩
  unfold slotIdentifier
  rw [hcomp]

/-- C6 (amended) witness: evaluated at concrete label and name, and with the
feature applied to an empty upgradeable model. -/
theorem claim_C6_amended_slot_determinism_witness :
    emptyUpgradeableBuilder.upgradeable = true ∧
    slotIdentifier "openzeppelin.storage" "MyContract"
      = hashString ("openzeppelin.storage" ++ ".storage." ++ "MyContract") ∧
    "openzeppelin.storage" ∈ (getOk (Solidity.Structured.addAddressVerification
        emptyUpgradeableBuilder (.jsStr "roles"))).storageEntries.map (fun e => e.1) :=
  have happ := claim_C6_amended_slot_determinism "openzeppelin.storage" "MyContract"
    "x" "y" emptyUpgradeableBuilder
    (getOk (Solidity.Structured.addAddressVerification emptyUpgradeableBuilder (.jsStr "roles")))
    (.jsStr "roles") (by decide) (by decide)
  ⟨by decide, happ.1, happ.2.2.2⟩

/-- C10: when `addAddressVerification` (structured variant) runs with
`access = 'roles'`, the `revokeAddressVerification` function is guarded by
the modifier `onlyRole(DEFAULT_ADMIN_ROLE_ROLE)`, where
`DEFAULT_ADMIN_ROLE_ROLE` is a freshly defined constant
`keccak256("DEFAULT_ADMIN_ROLE_ROLE")` obtained by appending `_ROLE` to the
passed prefix `DEFAULT_ADMIN_ROLE` — not the inherited `AccessControl`
`DEFAULT_ADMIN_ROLE`; when the function was not previously in the table its
modifier list is exactly that one guard. -/
theorem claim_C10_revoke_guard_uses_derived_role (c d : ContractBuilder)
    (h : Solidity.Structured.addAddressVerification c (.jsStr "roles") = .ok d) :
    "onlyRole(DEFAULT_ADMIN_ROLE_ROLE)" ∈ d.modifiersOf
      Solidity.Structured.functions.revokeAddressVerification ∧
    "bytes32 public constant DEFAULT_ADMIN_ROLE_ROLE = keccak256(\"DEFAULT_ADMIN_ROLE_ROLE\");"
      ∈ d.constants.map (fun e => e.1) ∧
    (c.hasFunction Solidity.Structured.functions.revokeAddressVerification = false →
      d.modifiersOf Solidity.Structured.functions.revokeAddressVerification
        = ["onlyRole(DEFAULT_ADMIN_ROLE_ROLE)"]) := by
  unfold Solidity.Structured.addAddressVerification at h
  split at h
  · exact Except.noConfusion h
  · rename_i b1 c1 heq1
    split at h
    · exact Except.noConfusion h
    · rename_i b2 c2 heq2
      simp only [] at h
      generalize hc6 : ((((c2.addConstantOrImmutableOrErrorDefinition
          "event AddressVerified(address indexed account);"
          ["/// @dev Emitted when an address is verified"]).2.addConstantOrImmutableOrErrorDefinition
          "event VerificationRevoked(address indexed account);"
          ["/// @dev Emitted when address verification is revoked"]).2.addConstantOrImmutableOrErrorDefinition
          "error InvalidSignature();"
          ["/// @dev Error thrown when signature verification fails"]).2.addConstantOrImmutableOrErrorDefinition
          "error AlreadyVerified();"
          ["/// @dev Error thrown when address is already verified"]).2 = c6 at h
      generalize hb : (if c6.upgradeable = true then
          setNamespacedStorage c6
            ["mapping(address account => bool verified) _verifiedAddresses"]
            "openzeppelin.storage"
        else
          c6.addStateVariable "mapping(address => bool) private _verifiedAddresses;" false) = b at h
      have hbfun : b.functions = c6.functions := by
        rw [← hb]
        split_ifs <;> simp
      split at h
      · exact Except.noConfusion h
      · rename_i c8 heq3
        split at h
        · exact Except.noConfusion h
        · rename_i c9 heq4
          rw [if_pos (by decide : (JsAccess.jsStr "roles").truthy = true)] at h
          unfold Solidity.Structured.addRevokeAddressVerificationFunction at h
          have hmods := modifiersOf_addFunctionCode_ok _ _ _ _ h
          have hshape := addFunctionCode_ok_functions_only _ _ _ _ h
          have hg : ("onlyRole(" ++ ("DEFAULT_ADMIN_ROLE" ++ "_ROLE") ++ ")")
              = "onlyRole(DEFAULT_ADMIN_ROLE_ROLE)" := by decide
          have hd : ("bytes32 public constant " ++ ("DEFAULT_ADMIN_ROLE" ++ "_ROLE")
                ++ " = keccak256(\"" ++ ("DEFAULT_ADMIN_ROLE" ++ "_ROLE") ++ "\");")
              = "bytes32 public constant DEFAULT_ADMIN_ROLE_ROLE = keccak256(\"DEFAULT_ADMIN_ROLE_ROLE\");" := by
            decide
          refine ⟨?_, ?_, ?_⟩
          · rw [hmods, requireAccessControl_roles_none, hg]
            exact mem_modifiersOf_addModifier _ _ _
          · have hcon : d.constants
                = (Solidity.requireAccessControl c9
                    Solidity.Structured.functions.revokeAddressVerification
                    (.jsStr "roles") "DEFAULT_ADMIN_ROLE" none).constants := by
              rw [hshape]
            rw [hcon, requireAccessControl_roles_none]
            simp only [addModifier_constants]
            rw [← hd]
            exact mem_constants_addConstant _ _ _
          · intro hfresh
            have hf8 : c8.hasFunction Solidity.Structured.functions.revokeAddressVerification = false := by
              rw [hasFunction_addFunctionCode _ _ _ _ _ heq3,
                hasFunction_ensureFunction_ne _ _ _ (by decide),
                hasFunction_eq_of_functions_eq _ _ _ hbfun]
              rw [show c6.hasFunction Solidity.Structured.functions.revokeAddressVerification
                  = c2.hasFunction Solidity.Structured.functions.revokeAddressVerification from by
                refine hasFunction_eq_of_functions_eq _ _ _ ?_
                rw [← hc6]
                simp]
              rw [hasFunction_eq_of_functions_eq _ _ _ (by
                rw [addImportOnly_ok_imports_only _ _ _ _ _ heq2])]
              rw [hasFunction_eq_of_functions_eq _ _ _ (by
                rw [addImportOnly_ok_imports_only _ _ _ _ _ heq1])]
              exact hfresh
            have hf9 : c9.hasFunction Solidity.Structured.functions.revokeAddressVerification = false := by
              rw [hasFunction_addFunctionCode _ _ _ _ _ heq4,
                hasFunction_ensureFunction_ne _ _ _ (by decide)]
              exact hf8
            have hfB : ((Solidity.setAccessControl c9 (.jsStr "roles")).addConstantOrImmutableOrErrorDefinition
                  ("bytes32 public constant " ++ ("DEFAULT_ADMIN_ROLE" ++ "_ROLE")
                    ++ " = keccak256(\"" ++ ("DEFAULT_ADMIN_ROLE" ++ "_ROLE") ++ "\");") []).2.hasFunction
                Solidity.Structured.functions.revokeAddressVerification = false := by
              have h1 : ((Solidity.setAccessControl c9 (.jsStr "roles")).addConstantOrImmutableOrErrorDefinition
                    ("bytes32 public constant " ++ ("DEFAULT_ADMIN_ROLE" ++ "_ROLE")
                      ++ " = keccak256(\"" ++ ("DEFAULT_ADMIN_ROLE" ++ "_ROLE") ++ "\");") []).2.functions
                  = (Solidity.setAccessControl c9 (.jsStr "roles")).functions := by simp
              rw [hasFunction_eq_of_functions_eq _ _ _ h1,
                hasFunction_setAccessControl c9 (.jsStr "roles") _ (by decide)]
              exact hf9
            rw [hmods, requireAccessControl_roles_none, hg]
            rw [← hg]
            rw [modifiersOf_addModifier_of_not_hasFunction _ _ _ hfB, hg]

/-- C10 witness: the feature applied to the empty model with
`access = 'roles'`. -/
theorem claim_C10_revoke_guard_uses_derived_role_witness :
    Solidity.Structured.addAddressVerification emptyBuilder (.jsStr "roles")
      = .ok (getOk (Solidity.Structured.addAddressVerification emptyBuilder (.jsStr "roles"))) ∧
    emptyBuilder.hasFunction Solidity.Structured.functions.revokeAddressVerification = false ∧
    (getOk (Solidity.Structured.addAddressVerification emptyBuilder (.jsStr "roles"))).modifiersOf
        Solidity.Structured.functions.revokeAddressVerification
      = ["onlyRole(DEFAULT_ADMIN_ROLE_ROLE)"] :=
  have happ := claim_C10_revoke_guard_uses_derived_role emptyBuilder
    (getOk (Solidity.Structured.addAddressVerification emptyBuilder (.jsStr "roles")))
    (by decide)
  ⟨by decide, by decide, happ.2.2 (by decide)⟩

/-- C9: for every access value in the Stylus variant set, the Stylus
`setAccessControl` and `requireAccessControl` return the builder completely
unchanged — no use clause, trait, constant, modifier or guard statement is
added. -/
theorem claim_C9_stylus_access_control_noop (c : Stylus.StylusBuilder)
    (tr : Stylus.ContractTrait) (fn : BaseFunction) (pfx : String)
    (ro : Option String) (a : JsAccess) (ha : a ∈ Stylus.accessOptions) :
    Stylus.setAccessControl c a = .ok c ∧
    Stylus.requireAccessControl c tr fn a pfx ro = .ok c := by
  simp [Stylus.accessOptions] at ha
  rcases ha with rfl | rfl | rfl
  · exact ⟨rfl, rfl⟩
  · exact ⟨rfl, rfl⟩
  · exact ⟨rfl, rfl⟩

/-- C9 witness: all three in-set values evaluated on the empty Stylus model. -/
theorem claim_C9_stylus_access_control_noop_witness :
    (JsAccess.jsStr "roles") ∈ Stylus.accessOptions ∧
    Stylus.setAccessControl Stylus.emptyStylusBuilder (.jsStr "roles")
      = .ok Stylus.emptyStylusBuilder ∧
    Stylus.requireAccessControl Stylus.emptyStylusBuilder ⟨"T", "t", "T"⟩
        Solidity.supportsInterface (.jsStr "roles") "MY" none
      = .ok Stylus.emptyStylusBuilder :=
  ⟨by decide,
   (claim_C9_stylus_access_control_noop Stylus.emptyStylusBuilder ⟨"T", "t", "T"⟩
      Solidity.supportsInterface "MY" none (.jsStr "roles") (by decide)).1,
   (claim_C9_stylus_access_control_noop Stylus.emptyStylusBuilder ⟨"T", "t", "T"⟩
      Solidity.supportsInterface "MY" none (.jsStr "roles") (by decide)).2⟩

end ContractsWizard


